import Mathlib

/-!
Verification of the ExpLens status-tracker core (operation tracer).

This file is a shallow embedding of the tracer engine:

* `src/src/util/id_util.ts` — `countDigits`, `RotatingIdGenerator`;
* `src/unnamed/part_005` — `Stopwatch` / `formatDuration`;
* `src/src/util/DelayPromise.ts` — `DelayPromise`;
* `src/unnamed/part_008` — `TrackedOperation` (constructor, `setCompleted`,
  `addInfo`, `setFailureAndRethrow`, the line formatters);
* `src/unnamed/part_009` — `OperationsTracker` (`logLine`, `#trimLogBuffer`,
  `startOperation`, `observeEvent`, active-stack maintenance,
  `dropLogEntriesForCompletedOps`, `EventDisplayHandle`).

Modelling conventions:

* Machine numbers are `Nat` / `Int`; all the quantities involved (ids, buffer
  sizes, millisecond counts) are small nonnegative integers in the source, so
  no overflow is reachable.
* Wall-clock time is threaded explicitly: every public tracker call receives a
  calendar `day : Nat` and a millisecond timestamp `now : Nat` — they stand
  for the `new Date()` / `performance.now()` reads the source performs during
  that call.  The source's sentinel `#lastLoggedTs = new Date(2000, 1, 1)` is
  day `0`; sessions use days `≥ 1`.
* The heterogeneous `unknown` payloads are modelled by the closed inductive
  `JsVal`; an `Error` instance is the `JsVal.errVal` constructor.
* A rendered log line is abstracted to the data the line carries that the
  claims mention: its `LogEntryType`, its operation-id string, its transition
  moniker (`STRT`/`INFO`/`FAIL`/`SUCS`/`ATTN`/`ERRS`) and its rendered
  duration annotation (produced by the fully embedded `formatDuration`).
  Time-of-day text, indentation and the pretty-printed payload text are not
  modelled; no claim refers to them.
* JavaScript objects are identified by reference.  The embedding gives each
  `TrackedOperation` a unique `ref : Nat` allocated from a counter and keeps
  all created operations in the tracker state (`ops`); this materialises the
  object heap.  The active stack holds `ref`s (object references, as in the
  source); log entries hold operation-id strings (as in the source).
* The tracker's call graph is cyclic (`logLine → #trimLogBuffer →
  startOperation → logLine`), so the mutually recursive functions take a
  `fuel : Nat`; `none` means the fuel ran out.  Every concrete run below is
  evaluated with ample fuel.
* Listener notifications and console writes are external effects with no
  bearing on the tracker state; they are not modelled.  `PromiseCompletionSource`
  resolution is likewise external (`completionSignal` is not claimed about
  except through `DelayPromise`, which is modelled).
-/

set_option maxRecDepth 100000
set_option maxHeartbeats 4000000
set_option linter.unusedVariables false

namespace ExpLensTracker

/-! ## `src/src/util/id_util.ts` -/

/-- `String.prototype.padStart(len, c)` as used by the source: left-pad with
the character `c` up to length `len`. -/
def padStart (s : String) (len : Nat) (c : Char) : String :=
  String.mk (List.replicate (len - s.length) c) ++ s

/-- `countDigits(n)` of `id_util.ts`: number of decimal digits of a
nonnegative integer (the source computes `Math.floor(Math.log10(|n|)) + 1`,
which on the integers in range is the decimal digit count; `n = 0` gives 1). -/
def countDigits (n : Nat) : Nat :=
  if n = 0 then 1 else Nat.log 10 n + 1

/-- The mutable state of `RotatingIdGenerator` (`id_util.ts`). -/
structure RotatingIdGenerator where
  startId : Nat
  maxId : Nat
  minFormatDigitCount : Nat
  nextId : Nat
deriving DecidableEq, Repr

namespace RotatingIdGenerator

/-- The `RotatingIdGenerator` constructor.  The source throws `RangeError`
when `maxId <= startId` (or on non-integers, unrepresentable for `Nat`);
a thrown constructor is `none`. -/
def create (maxId : Nat) (startId : Nat) : Option RotatingIdGenerator :=
  if maxId ≤ startId then
    none
  else
    some { startId := startId, maxId := maxId,
           minFormatDigitCount := countDigits maxId, nextId := startId }

/-- `setMinFormatDigitCount`.  The `maxDigCount < 0` reset branch is
unreachable for `Nat` arguments. -/
def setMinFormatDigitCount (g : RotatingIdGenerator) (maxDigCount : Nat) :
    RotatingIdGenerator :=
  { g with minFormatDigitCount := maxDigCount }

/-- `createNextId()`: returns the current `#nextId` and advances it,
wrapping from `maxId` back to `startId`. -/
def createNextId (g : RotatingIdGenerator) : Nat × RotatingIdGenerator :=
  (g.nextId,
   if g.nextId = g.maxId then { g with nextId := g.startId }
   else { g with nextId := g.nextId + 1 })

/-- `formatId(id)`: after the range check on `id`, the source formats
`this.#nextId` (not `id`): `this.#nextId.toString().padStart(minDigits, "0")`.
The range-check throw is `none`. -/
def formatId (g : RotatingIdGenerator) (id : Nat) : Option String :=
  if id < g.startId ∨ g.maxId < id then
    none
  else
    some (padStart (toString g.nextId) g.minFormatDigitCount '0')

/-- `createAndFormatNextId()`: `createNextId` (which advances `#nextId`),
then `formatId` on the advanced generator. -/
def createAndFormatNextId (g : RotatingIdGenerator) :
    Option ((Nat × String) × RotatingIdGenerator) :=
  let (id, g') := createNextId g
  match formatId g' id with
  | none => none
  | some idStr => some ((id, idStr), g')

end RotatingIdGenerator

/-! ## `formatDuration` (`src/unnamed/part_005`)

The source takes a float millisecond count.  All durations produced by the
tracker model are integer milliseconds, for which `Math.round(totalMSec * 10)`
is exact; the embedding therefore takes an `Int` (keeping the sign logic) and
multiplies by 10 directly.  The `!Number.isFinite` / `Number.isNaN` branches
concern float inputs only and are not representable. -/

def formatDuration (totalMSec : Int) : String :=
  let isNegative : Bool := totalMSec < 0
  let totalMicrosec100s : Nat := (totalMSec * 10).natAbs
  if totalMicrosec100s = 0 then "0ms"
  else
    let microsec100s := totalMicrosec100s % 10000
    let mics := padStart (toString microsec100s) 4 '0'
    let totalSec := totalMicrosec100s / 10000
    if totalSec = 0 then
      if isNegative then "-0." ++ mics ++ "s" else "0." ++ mics ++ "s"
    else
      let sec := totalSec % 60
      let ss := padStart (toString sec) 2 '0'
      let totalMin := totalSec / 60
      if totalMin = 0 then
        if isNegative then "-" ++ ss ++ "." ++ mics ++ "s"
        else ss ++ "." ++ mics ++ "s"
      else
        let min := totalMin % 60
        let mm := padStart (toString min) 2 '0'
        let totalHrs := totalMin / 60
        if totalHrs = 0 then
          if isNegative then "-" ++ mm ++ ":" ++ ss ++ "." ++ mics
          else mm ++ ":" ++ ss ++ "." ++ mics
        else
          -- Source line 104: `const hh = sec.toString();` — the hour field is
          -- rendered from `sec`, not from `totalHrs`.
          let hh := toString sec
          if isNegative then hh ++ ":" ++ mm ++ ":" ++ ss ++ "." ++ mics
          else hh ++ ":" ++ mm ++ ":" ++ ss ++ "." ++ mics

/-- What the spec describes for the `hh:mm:ss` branch: the hour field rendered
from the whole number of elapsed hours.  Used to state claim C9 against
`formatDuration`. -/
def specHourField (totalMSec : Int) : String :=
  toString ((totalMSec * 10).natAbs / 10000 / 60 / 60)

/-! ## `src/src/util/DelayPromise.ts`

`PromiseCompletionSource` is folded into the two boolean fields the source
reads (`#isCompleted` of the completion source, and the resolution value);
the promise object itself is an external effect.  The `setTimeout` callback
firing is modelled as the explicit transition `timerFire`. -/

structure DelayPromise where
  delayMSec : Nat
  isDelayCompleted : Bool
  isStarted : Bool
  /-- `#completion.isCompleted()` — whether the underlying completion source
  has been resolved. -/
  resolved : Bool
  /-- The boolean value the promise resolved to, when resolved. -/
  resolvedValue : Option Bool
deriving DecidableEq, Repr

namespace DelayPromise

/-- The `DelayPromise` constructor (the non-integer / negative throws are
unrepresentable for a `Nat` argument). -/
def create (delayMSec : Nat) : DelayPromise :=
  { delayMSec := delayMSec, isDelayCompleted := false, isStarted := false,
    resolved := false, resolvedValue := none }

/-- `isCompleted()`: whether the delay time has completed. -/
def isCompleted (p : DelayPromise) : Bool :=
  p.isDelayCompleted

/-- `isResolved()`. -/
def isResolved (p : DelayPromise) : Bool :=
  p.resolved

/-- `tryResolve` of the wrapped `PromiseCompletionSource` with value `v`. -/
def tryResolveWith (p : DelayPromise) (v : Bool) : DelayPromise × Bool :=
  if p.resolved then (p, false)
  else ({ p with resolved := true, resolvedValue := some v }, true)

/-- `start()`: arms the timer if not yet started (idempotent).  The timer
firing itself is the separate transition `timerFire`. -/
def start (p : DelayPromise) : DelayPromise :=
  if p.isStarted then p else { p with isStarted := true }

/-- The `setTimeout` callback of `start()`: sets `#isDelayCompleted` and
resolves the completion source with `true`. -/
def timerFire (p : DelayPromise) : DelayPromise :=
  (tryResolveWith { p with isDelayCompleted := true } true).1

/-- `tryResolve()`: resolves the completion source with `false`. -/
def tryResolve (p : DelayPromise) : DelayPromise × Bool :=
  tryResolveWith p false

end DelayPromise

/-! ## `EventLevelKind` (`src/src/status-tracker/models/EventLevelKind.ts`)

A flags enum over bit masks. -/

def EventLevelKind : Type := Nat

def EventLevelKind.Inf : EventLevelKind := (1 : Nat)
def EventLevelKind.Wrn : EventLevelKind := (2 : Nat)
def EventLevelKind.Err : EventLevelKind := (4 : Nat)
def EventLevelKind.Suc : EventLevelKind := (8 : Nat)
def EventLevelKind.ConsoleCapture : EventLevelKind := (512 : Nat)
def EventLevelKind.WindowErrCapture : EventLevelKind := (1024 : Nat)

/-- `EventLevelKind.is(eventLevel, isKind)`: `(eventLevel & isKind) === isKind`. -/
def EventLevelKind.isKind (eventLevel isKind : EventLevelKind) : Bool :=
  Nat.land eventLevel isKind = isKind

/-! ## Payload values (`unknown` in the source)

The structured payloads attached to operations are arbitrary JavaScript
values; the tracker inspects them only shallowly: `hasData` (array
nonemptiness), `getErrors` (shallow scan for `Error` instances) and the
pretty-printer (whose text output is abstracted away).  The closed variant
below covers those observations; `errVal` is an `Error` instance, the other
constructors are non-`Error` values.  A payload array is a `List JsVal` at
the top layer; an array nested *inside* a payload is opaque to every tracker
observation (the `Error` scan is shallow) and is represented by `objVal`. -/

inductive JsVal where
  | errVal (msg : String)
  | strVal (s : String)
  | objVal (tag : String)
deriving DecidableEq, Repr

/-- `hasData(data)` of `TrackedOperation`: `data && data.length > 0`
(an absent `info` argument is the empty list). -/
def hasData (data : List JsVal) : Bool :=
  data.length > 0

/-- Whether a value is an `Error` instance (`v instanceof Error`). -/
def JsVal.isError : JsVal → Bool
  | JsVal.errVal _ => true
  | _ => false

/-- `getErrors(info)` of `TrackedOperation`, at its call sites (where `info`
is always an array): the shallow `Error` elements, `null` if none. -/
def getErrors (info : List JsVal) : Option (List JsVal) :=
  if info.length < 1 then none
  else
    let errs := info.filter JsVal.isError
    if errs.length > 0 then some errs else none

/-- The whitespace characters `String.prototype.trim` strips (the JavaScript
set restricted to the characters the model can meet). -/
def isTrimmedChar (c : Char) : Bool :=
  c = ' ' || c = '\t' || c = '\n' || c = '\r'

/-- `name.trim()`: strip leading and trailing whitespace. -/
def trimString (s : String) : String :=
  String.mk (((s.data.dropWhile isTrimmedChar).reverse.dropWhile
    isTrimmedChar).reverse)

/-- `formatOperationName(name)`: a trimmed-empty name becomes `"EmptyName"`
(the `undefined`/`null` branches are unrepresentable for `String`). -/
def formatOperationName (name : String) : String :=
  let name := trimString name
  if name.length = 0 then "EmptyName" else name

/-! ## The log model (`src/unnamed/part_009`) -/

/-- `LogEntryType` of `OperationsTracker` (`Date = 1` … `OpErrNote = 5`). -/
inductive LogEntryType where
  | Date
  | OpStart
  | OpEnd
  | OpInfo
  | OpErrNote
deriving DecidableEq, Repr

/-- `OperationTransitionMonikers` of `TrackedOperation`. -/
inductive Moniker where
  | STRT
  | INFO
  | FAIL
  | SUCS
  | ATTN
  | ERRS
deriving DecidableEq, Repr

/-- A `LogEntry`: `{type, opId, entry}`.  The rendered `entry` text is
abstracted to the transition moniker it starts with and the duration
annotation it carries (`none` when the line renders no duration). -/
structure LogEntry where
  type : LogEntryType
  opId : Option String
  moniker : Option Moniker
  duration : Option String
deriving DecidableEq, Repr

/-! ## Operations and the tracker state -/

/-- One `TrackedOperation` (`src/unnamed/part_008`).  `ref` is the object
identity (see the header); `startTime`/`endTime` fold in the `Stopwatch`
(`#startMSec` / `#stopMSec`) and the start/end `Date` timestamps, which the
source reads from the same clock. -/
structure TrackedOperation where
  ref : Nat
  opIdNum : Nat
  opIdStr : String
  name : String
  parentRef : Option Nat
  nestDepth : Nat
  isContainer : Bool
  avoidConsole : Bool
  /-- `#info`: the list of pushed payload arrays. -/
  info : List (List JsVal)
  isSucceeded : Bool
  isFailed : Bool
  startTime : Nat
  endTime : Option Nat
deriving DecidableEq, Repr

/-- `isCompleted` of `TrackedOperation`. -/
def TrackedOperation.isCompleted (op : TrackedOperation) : Bool :=
  op.isSucceeded || op.isFailed

/-- `Stopwatch.elapsedMSec()` for the operation's timer: stopped time if
stopped, else the current clock. -/
def TrackedOperation.elapsedMSec (op : TrackedOperation) (now : Nat) : Nat :=
  (op.endTime.getD now) - op.startTime

/-- `getDurationStr()`: `formatDuration` of the elapsed milliseconds. -/
def TrackedOperation.getDurationStr (op : TrackedOperation) (now : Nat) : String :=
  formatDuration (op.elapsedMSec now : Nat)

/-- The tracker configuration fields the core reads (`writeToConsole` and the
listener only drive external effects). -/
structure TrackerConfig where
  logBufferSize : Nat
  logBufferCleanStep : Nat
  eventDisplayDurationMSec : Nat
deriving DecidableEq, Repr

/-- The mutable state of one `OperationsTracker`, plus the operation heap
(`ops`, `nextRef`) that models JavaScript object identity. -/
structure TrackerState where
  sessionId : String
  idGen : RotatingIdGenerator
  /-- `#activeOps`: object references, last entry is the top of the stack. -/
  activeOps : List Nat
  /-- `#loggedOps`: the bounded log buffer. -/
  loggedOps : List LogEntry
  /-- `#lastLoggedTs`, reduced to its calendar day. -/
  lastLoggedDay : Nat
  trimmingLogBufferInProgress : Bool
  /-- All operations ever constructed, newest first (the object heap). -/
  ops : List TrackedOperation
  nextRef : Nat
  config : TrackerConfig
deriving DecidableEq, Repr

/-- `OPERATION_ID_FORMAT_MIN_DIGIT_COUNT`. -/
def OPERATION_ID_FORMAT_MIN_DIGIT_COUNT : Nat := 4

/-- The tracker's id generator:
`new RotatingIdGenerator(9999999, 1).setMinFormatDigitCount(4)`. -/
def trackerIdGenerator : RotatingIdGenerator :=
  match RotatingIdGenerator.create 9999999 1 with
  | some g => g.setMinFormatDigitCount OPERATION_ID_FORMAT_MIN_DIGIT_COUNT
  | none => { startId := 0, maxId := 1, minFormatDigitCount := 1, nextId := 0 }

/-- A freshly constructed `OperationsTracker` (the random `sessionId` is a
parameter; day 0 is the `new Date(2000, 1, 1)` sentinel). -/
def trackerInit (sessionId : String) (config : TrackerConfig) : TrackerState :=
  { sessionId := sessionId, idGen := trackerIdGenerator, activeOps := [],
    loggedOps := [], lastLoggedDay := 0, trimmingLogBufferInProgress := false,
    ops := [], nextRef := 0, config := config }

/-- Dereference an operation object. -/
def findOp (s : TrackerState) (r : Nat) : Option TrackedOperation :=
  s.ops.find? (fun o => o.ref = r)

/-- Replace the operation object `r` on the heap (a field mutation on the
JavaScript object). -/
def updateOp (s : TrackerState) (r : Nat) (op : TrackedOperation) : TrackerState :=
  { s with ops := s.ops.map (fun o => if o.ref = r then op else o) }

/-- `getCurrentTopContainer()`: nearest container scanning the active stack
from the end. -/
def getCurrentTopContainer (s : TrackerState) : Option TrackedOperation :=
  (s.activeOps.reverse.filterMap (findOp s)).find? (fun op => op.isContainer)

/-- `#indexOfActiveOpsByIdStr(idStr) >= 0`: whether some active operation has
the given operation-id string. -/
def isActiveIdStr (s : TrackerState) (idStr : String) : Bool :=
  s.activeOps.any (fun r => (findOp s r).any (fun op => op.opIdStr = idStr))

/-- `addToActiveOpsStack(operation)` (the listener notification is an
external effect). -/
def addToActiveOpsStack (s : TrackerState) (r : Nat) : TrackerState :=
  { s with activeOps := s.activeOps ++ [r] }

/-- `removeFromActiveOpsStack(operation)`: the two misuse branches (empty
stack, reference not present) only write a console error and change nothing;
otherwise the last matching reference is removed (`pop` when topmost,
`splice` otherwise). -/
def removeFromActiveOpsStack (s : TrackerState) (r : Nat) : TrackerState :=
  if s.activeOps.length < 1 then s
  else if ¬ s.activeOps.contains r then s
  else { s with activeOps := (s.activeOps.reverse.erase r).reverse }

/-- `#logDateIfChanged(date)`: pushes a `DateMarker` entry when the calendar
day differs from `#lastLoggedTs`'s (the source compares year, month and day;
a day index models the triple).  No trim check happens here. -/
def logDateIfChanged (day : Nat) (s : TrackerState) : TrackerState :=
  if s.lastLoggedDay = day then s
  else
    { s with lastLoggedDay := day,
             loggedOps := s.loggedOps ++
               [{ type := LogEntryType.Date, opId := none, moniker := none,
                  duration := none }] }

/-- The rendered active-stack strings of the currently active operations
(used by `dropLogEntriesForCompletedOps`' instrumentation below). -/
def activeIdStrs (s : TrackerState) : List String :=
  s.activeOps.filterMap (fun r => (findOp s r).map (fun op => op.opIdStr))

/-- `EventDisplayHandle` (`src/unnamed/part_009`): a completed event
operation wrapped with its display-expiry `DelayPromise`. -/
structure EventDisplayHandle where
  opRef : Nat
  delay : DelayPromise
deriving DecidableEq, Repr

/-- `EventDisplayHandle.isCompleted()`: delegates to the delay. -/
def EventDisplayHandle.isCompleted (h : EventDisplayHandle) : Bool :=
  h.delay.isCompleted

/-- `ImpossibleOpId` of `dropLogEntriesForCompletedOps`. -/
def ImpossibleOpId : String := "__impossible_id_"

/-- The first inner loop of `dropLogEntriesForCompletedOps`: skip incomplete
operations, searching for the first complete one.  `rest` is the buffer
suffix starting at position `dropFrom`; returns the final `dropFrom`.
(The `if (!loggedOp) break` hole check of the source cannot arise.) -/
def skipIncompleteOps (isComplete : LogEntry → Bool) :
    List LogEntry → Nat → String → Nat
  | [], dropFrom, _ => dropFrom
  | e :: rest, dropFrom, lastCheckId =>
    if e.opId = some lastCheckId then
      skipIncompleteOps isComplete rest (dropFrom + 1) lastCheckId
    else if isComplete e then dropFrom
    else skipIncompleteOps isComplete rest (dropFrom + 1) (e.opId.getD ImpossibleOpId)

/-- The second inner loop of `dropLogEntriesForCompletedOps`: find all
complete operations starting from `dropFrom`; returns `dropTo`. -/
def extendCompleteOps (isComplete : LogEntry → Bool) :
    List LogEntry → Nat → String → Nat
  | [], dropTo, _ => dropTo
  | e :: rest, dropTo, lastCheckId =>
    if e.opId = some lastCheckId then
      extendCompleteOps isComplete rest (dropTo + 1) lastCheckId
    else if ¬ isComplete e then dropTo
    else extendCompleteOps isComplete rest (dropTo + 1) (e.opId.getD ImpossibleOpId)

/-- `isOperationComplete(opL)` of `dropLogEntriesForCompletedOps`:
`!opL.opId || this.#indexOfActiveOpsByIdStr(opL.opId) < 0`. -/
def isOperationComplete (s : TrackerState) (e : LogEntry) : Bool :=
  e.opId.isNone || ¬ isActiveIdStr s (e.opId.getD ImpossibleOpId)

/-! ## The tracker engine

The call graph is cyclic: `logLine` calls `#trimLogBuffer` on overflow, which
starts and completes a "Trimming Log Buffer" operation, whose lifecycle calls
`logLine` again (the reentrancy guard, not the call structure, is what stops
the recursion).  To keep every run computable by the kernel, the whole cycle
is a single structurally recursive interpreter `engine` over an explicit call
type: each `Call` constructor carries the arguments of one source method,
each `engine` case is that method's body, and the wrappers following `engine`
restore the source signatures.  `engine` takes `fuel`; `none` is a run out of
fuel, never a behavior of the source. -/

/-- The field initialisation of the `TrackedOperation` constructor
(`part_008`, lines 42–69): id strings, `nestDepth` from the parent, the
initial info push, pending completion state, and the started timer. -/
def newTrackedOperation (s : TrackerState) (opId : Nat × String)
    (name : String) (parent : Option TrackedOperation) (isContainer : Bool)
    (avoidConsole : Bool) (info : List JsVal) (now : Nat) :
    TrackedOperation :=
  { ref := s.nextRef, opIdNum := opId.1,
    opIdStr := s.sessionId ++ "." ++ opId.2,
    name := formatOperationName name,
    parentRef := parent.map (fun p => p.ref),
    nestDepth :=
      match parent with
      | some p => p.nestDepth + 1
      | none => 0,
    isContainer := isContainer, avoidConsole := avoidConsole,
    info := if hasData info then [info] else [],
    isSucceeded := false, isFailed := false,
    startTime := now, endTime := none }

/-- The field mutations `setCompleted` performs on a not-yet-completed
operation (`part_008`, lines 193–204): timer stop and end timestamp, the
info push when info was given, and the completion flag. -/
def completedOp (op : TrackedOperation) (isSuccess : Bool)
    (info : List JsVal) (now : Nat) : TrackedOperation :=
  let op := { op with endTime := some now }
  let op := if hasData info then { op with info := op.info ++ [info] } else op
  if isSuccess then { op with isSucceeded := true }
  else { op with isFailed := true }

/-- The `eventInfo` normalisation of `observeEvent`: a missing value becomes
`[]`, an array argument is spread, a single value is wrapped in an array. -/
def eventInfoArr : Option (Sum (List JsVal) JsVal) → List JsVal
  | none => []
  | some (Sum.inl arr) => arr
  | some (Sum.inr v) => [v]

/-- One call into the tracker's cyclic call graph. -/
inductive Call where
  | logLineC (moniker : Moniker) (duration : Option String) (opIdStr : String)
      (entryType : LogEntryType)
  | trimC
  | logErrorsC (opIdStr : String) (avoidConsole : Bool) (errors : List JsVal)
  | mkOpC (opId : Nat × String) (name : String)
      (parent : Option TrackedOperation) (isContainer : Bool)
      (iconStr : Option String) (avoidConsole : Bool) (info : List JsVal)
  | startOperationC (name : String) (info : List JsVal)
  | setCompletedC (r : Nat) (isSuccess : Bool) (info : List JsVal)
  | addInfoC (r : Nat) (data : List JsVal)
  | observeEventC (kind : EventLevelKind) (name : String)
      (eventInfo : Option (Sum (List JsVal) JsVal)) (moreInfo : List JsVal)
  | dropLoopC (dropRef : Nat) (dropFrom : Nat) (totalDropCount : Nat)
      (droppedAcc : List (List LogEntry × List String))
  | dropC

/-- What a call returns besides the updated state. -/
inductive EngineResult where
  | unitRes
  | refRes (r : Nat)
  | flagRes (b : Bool)
  | handleRes (h : EventDisplayHandle)
  | droppedRes (totalDropCount : Nat)
      (droppedAcc : List (List LogEntry × List String))
deriving DecidableEq, Repr

/-- Project an engine result that carries no value. -/
def asState : Option (TrackerState × EngineResult) → Option TrackerState
  | some (s, _) => some s
  | none => none

/-- Project an engine result that carries an operation reference. -/
def asRef : Option (TrackerState × EngineResult) →
    Option (TrackerState × Nat)
  | some (s, EngineResult.refRes r) => some (s, r)
  | _ => none

/-- Project an engine result that carries a boolean. -/
def asFlag : Option (TrackerState × EngineResult) →
    Option (TrackerState × Bool)
  | some (s, EngineResult.flagRes b) => some (s, b)
  | _ => none

/-- Project an engine result that carries an `EventDisplayHandle`. -/
def asHandle : Option (TrackerState × EngineResult) →
    Option (TrackerState × EventDisplayHandle)
  | some (s, EngineResult.handleRes h) => some (s, h)
  | _ => none

/-- Project an engine result that carries the compaction's drop data. -/
def asDropped : Option (TrackerState × EngineResult) →
    Option (TrackerState × Nat × List (List LogEntry × List String))
  | some (s, EngineResult.droppedRes t acc) => some (s, t, acc)
  | _ => none

/-- The tracker engine.  Each case is the body of one source method:

* `logLineC` — `OperationsTracker.logLine(entryData, timestamp, operation,
  entryType)`: date-marker insertion, append, listener notification
  (external), console write (external), then the overflow check that
  triggers `#trimLogBuffer`.  The rendered `entryData` string is abstracted
  to `(moniker, duration)`.
* `trimC` — `OperationsTracker.#trimLogBuffer()`.  The `try`/`catch` wrapper
  is dropped: nothing in the body can throw in this model (the only throwing
  tracker API is `setFailureAndRethrow`, which the trim never calls).
* `logErrorsC` — `OperationsTracker.logErrors(operation, errors,
  logTimestamp)`: skipped entirely when the operation avoids the console;
  otherwise emits the `formatErrorNotice` line (moniker `ERRS`, type
  `OpErrNote`); the per-error console dumps are external.
* `mkOpC` — the `TrackedOperation` constructor (`part_008`, lines 32–97):
  field initialisation, the `OpStart` line (moniker `STRT` for a container,
  `ATTN` for an event), the parent-info `OpInfo` line (emitted unless the
  parent info was lifted into a bare event's own start line), the error
  notice for shallow errors in the initial info, and the push onto the
  active stack; returns the new operation's reference.
* `startOperationC` — `OperationsTracker.startOperation(name, ...info)`
  (the `string[]` name join is outside the model: names are strings).
* `setCompletedC` — `TrackedOperation.setCompleted(isSuccess, info?)` on the
  operation `r`: the already-completed early return, timer stop, info push,
  completion flag, error notice, the `OpEnd` line (`#formatEndEntry`:
  moniker `SUCS`/`FAIL` for containers, `ATTN` for events; duration shown
  iff `showOpDets`), completion promise resolution (external) and the
  container pop from the active stack.
* `addInfoC` — `TrackedOperation.addInfo(...data)` on the operation `r`:
  pushes the payload, emits the `#formatInfoEntry` line — which the source
  tags `LogEntryType.OpEnd` (line 236 of `part_008`) — and routes shallow
  errors to `logErrors`.
* `observeEventC` — `OperationsTracker.observeEvent(kind, name, eventInfo,
  ...moreInfo)`: parent resolution, id allocation, console-capture
  suppression, `eventInfo` normalisation (`undefined → []`, array → itself,
  other value → `[value]`), construction as a non-container,
  `addInfo([moreInfo])` when extra info was passed (the rest-array is a
  single opaque nested value), `setSuccess()`, and the time-boxed
  `EventDisplayHandle` (its `DelayPromise` started).
* `dropLoopC` — the `while (true)` loop of `dropLogEntriesForCompletedOps`:
  skip-incomplete, find-complete, the single-date-entry stop, the progress
  `addInfo` (which can overflow the buffer and trigger a trim), the splice
  at the scanned positions, and the date-marker restoration.  Besides the
  state it returns `totalDropCount` and — materialising the loop's
  `droppedEntries` bindings for the theorems below — each spliced-out batch
  paired with the active operation-id strings at the moment of that splice.
* `dropC` — `OperationsTracker.dropLogEntriesForCompletedOps()`.  The
  `try`/`catch` is dropped (nothing in the body throws in this model); the
  empty-buffer early return is kept, though it is unreachable — the
  function's own `startOperation` has just appended at least one entry. -/
def engine : Nat → Call → Nat → Nat → TrackerState →
    Option (TrackerState × EngineResult)
  | 0, _, _, _, _ => none
  | fuel+1, call, day, now, s =>
    match call with
    | Call.logLineC moniker duration opIdStr entryType =>
      let s := logDateIfChanged day s
      let entry : LogEntry :=
        { type := entryType, opId := some opIdStr, moniker := some moniker,
          duration := duration }
      let s := { s with loggedOps := s.loggedOps ++ [entry] }
      if s.loggedOps.length > s.config.logBufferSize then
        engine fuel Call.trimC day now s
      else
        some (s, EngineResult.unitRes)
    | Call.trimC =>
      if s.trimmingLogBufferInProgress then some (s, EngineResult.unitRes)
      else
        let s := { s with trimmingLogBufferInProgress := true }
        do
          let (s, trimRef) ← asRef (engine fuel
            (Call.startOperationC "Trimming Log Buffer" [JsVal.objVal "logEntries"])
            day now s)
          let removedEntries := s.loggedOps.take s.config.logBufferCleanStep
          let s := { s with loggedOps :=
            s.loggedOps.drop s.config.logBufferCleanStep }
          let lastDateEntry :=
            removedEntries.reverse.find? (fun e => e.type = LogEntryType.Date)
          let s :=
            match lastDateEntry with
            | some d => { s with loggedOps := d :: s.loggedOps }
            | none => s
          let s ← asState (engine fuel
            (Call.addInfoC trimRef
              [JsVal.strVal "Notifying listener.", JsVal.objVal "removedEntries"])
            day now s)
          let s := { s with trimmingLogBufferInProgress := false }
          let (s, _) ← asFlag (engine fuel
            (Call.setCompletedC trimRef true [JsVal.objVal "loggedOps"])
            day now s)
          pure (s, EngineResult.unitRes)
    | Call.logErrorsC opIdStr avoidConsole _errors =>
      if avoidConsole then some (s, EngineResult.unitRes)
      else
        engine fuel
          (Call.logLineC Moniker.ERRS none opIdStr LogEntryType.OpErrNote)
          day now s
    | Call.mkOpC opId name parent isContainer _iconStr avoidConsole info =>
      let opIdStr := s.sessionId ++ "." ++ opId.2
      let hasInfo := hasData info
      let op : TrackedOperation :=
        newTrackedOperation s opId name parent isContainer avoidConsole info now
      let s := { s with ops := op :: s.ops, nextRef := s.nextRef + 1 }
      do
        -- `#formatStartEntries`: `STRT`/`ATTN` (`Start`/`Event`) moniker, no
        -- duration.  `liftParentInfo` only swaps the rendered info payload of
        -- this line (abstracted) and suppresses the separate parent-info line.
        let startMoniker := if isContainer then Moniker.STRT else Moniker.ATTN
        let s ← asState (engine fuel
          (Call.logLineC startMoniker none opIdStr LogEntryType.OpStart)
          day now s)
        let liftParentInfo := ¬ isContainer ∧ ¬ hasInfo
        let s ←
          if liftParentInfo then pure s
          else
            -- `#formatInfoEntry(startTimestamp, [parentInfo])`, tagged `OpInfo`.
            asState (engine fuel
              (Call.logLineC Moniker.INFO (some (op.getDurationStr now)) opIdStr
                LogEntryType.OpInfo)
              day now s)
        let s ←
          match getErrors info with
          | some errs =>
            asState (engine fuel (Call.logErrorsC opIdStr avoidConsole errs)
              day now s)
          | none => pure s
        let s := addToActiveOpsStack s op.ref
        pure (s, EngineResult.refRes op.ref)
    | Call.startOperationC name info =>
      let parent := getCurrentTopContainer s
      do
        let (opId, gen) ← s.idGen.createAndFormatNextId
        let s := { s with idGen := gen }
        engine fuel (Call.mkOpC opId name parent true none false info)
          day now s
    | Call.setCompletedC r isSuccess info =>
      do
        let op ← findOp s r
        if op.isCompleted then pure (s, EngineResult.flagRes false)
        else
          let op := completedOp op isSuccess info now
          let s := updateOp s r op
          let s ←
            match getErrors info with
            | some errs =>
              asState (engine fuel
                (Call.logErrorsC op.opIdStr op.avoidConsole errs) day now s)
            | none => pure s
          let tranMon :=
            if op.isContainer then
              if op.isSucceeded then Moniker.SUCS else Moniker.FAIL
            else Moniker.ATTN
          let showOpDets := op.isContainer || op.info.length > 0 || hasData info
          let dur :=
            if showOpDets then some (op.getDurationStr now) else none
          let s ← asState (engine fuel
            (Call.logLineC tranMon dur op.opIdStr LogEntryType.OpEnd) day now s)
          let s := if op.isContainer then removeFromActiveOpsStack s r else s
          pure (s, EngineResult.flagRes true)
    | Call.addInfoC r data =>
      do
        let op ← findOp s r
        let op := { op with info := op.info ++ [data] }
        let s := updateOp s r op
        let s ← asState (engine fuel
          (Call.logLineC Moniker.INFO (some (op.getDurationStr now))
            op.opIdStr LogEntryType.OpEnd)
          day now s)
        let s ←
          match getErrors data with
          | some errs =>
            asState (engine fuel
              (Call.logErrorsC op.opIdStr op.avoidConsole errs) day now s)
          | none => pure s
        pure (s, EngineResult.unitRes)
    | Call.observeEventC kind name eventInfo moreInfo =>
      let parent := getCurrentTopContainer s
      do
        let (opId, gen) ← s.idGen.createAndFormatNextId
        let s := { s with idGen := gen }
        let avoidConsole :=
          EventLevelKind.isKind kind EventLevelKind.ConsoleCapture
        let (s, r) ← asRef (engine fuel
          (Call.mkOpC opId name parent false (some "icon") avoidConsole
            (eventInfoArr eventInfo))
          day now s)
        let s ←
          if moreInfo.length > 0 then
            asState (engine fuel (Call.addInfoC r [JsVal.objVal "moreInfo"])
              day now s)
          else pure s
        let (s, _) ← asFlag (engine fuel (Call.setCompletedC r true [])
          day now s)
        let hndl : EventDisplayHandle :=
          { opRef := r,
            delay := (DelayPromise.create s.config.eventDisplayDurationMSec).start }
        pure (s, EngineResult.handleRes hndl)
    | Call.dropLoopC dropRef dropFrom totalDropCount droppedAcc =>
      let dropFrom := skipIncompleteOps (isOperationComplete s)
        (s.loggedOps.drop dropFrom) dropFrom ImpossibleOpId
      if dropFrom ≥ s.loggedOps.length then
        some (s, EngineResult.droppedRes totalDropCount droppedAcc)
      else
        let dropTo := extendCompleteOps (isOperationComplete s)
          (s.loggedOps.drop dropFrom) dropFrom ImpossibleOpId
        let dropCount := dropTo - dropFrom
        if dropCount = 1 ∧
            (s.loggedOps.get? dropFrom).any
              (fun e => e.type = LogEntryType.Date) then
          some (s, EngineResult.droppedRes totalDropCount droppedAcc)
        else
          let totalDropCount := totalDropCount + dropCount
          do
            let s ← asState (engine fuel
              (Call.addInfoC dropRef
                [JsVal.strVal "Dropping a range of entries",
                 JsVal.objVal "dropRange"])
              day now s)
            let droppedEntries := (s.loggedOps.drop dropFrom).take dropCount
            let s := { s with loggedOps :=
              s.loggedOps.take dropFrom ++ s.loggedOps.drop (dropFrom + dropCount) }
            let droppedAcc := droppedAcc ++ [(droppedEntries, activeIdStrs s)]
            let s :=
              if dropFrom < s.loggedOps.length ∧
                  ¬ (s.loggedOps.get? dropFrom).any
                      (fun e => e.type = LogEntryType.Date) then
                match droppedEntries.reverse.find?
                    (fun e => e.type = LogEntryType.Date) with
                | some d =>
                  let restored :=
                    s.loggedOps.take dropFrom ++ [d] ++ s.loggedOps.drop dropFrom
                  { s with loggedOps := restored }
                | none => s
              else s
            engine fuel (Call.dropLoopC dropRef dropFrom totalDropCount droppedAcc)
              day now s
    | Call.dropC =>
      do
        let (s, dropRef) ← asRef (engine fuel
          (Call.startOperationC "Dropping Log Entries for Completed Operations" [])
          day now s)
        if s.loggedOps.length = 0 then
          let (s, _) ← asFlag (engine fuel
            (Call.setCompletedC dropRef true
              [JsVal.strVal "No log entries, nothing to do."])
            day now s)
          pure (s, EngineResult.droppedRes 0 [])
        else
          let (s, totalDropCount, droppedAcc) ← asDropped (engine fuel
            (Call.dropLoopC dropRef 0 0 []) day now s)
          let s ← asState (engine fuel
            (Call.addInfoC dropRef [JsVal.strVal "Updating listener"]) day now s)
          let (s, _) ← asFlag (engine fuel
            (Call.setCompletedC dropRef true [JsVal.objVal "totalDropCount"])
            day now s)
          pure (s, EngineResult.droppedRes totalDropCount droppedAcc)

/-- `OperationsTracker.logLine` (see `engine`). -/
def logLine (fuel : Nat) (moniker : Moniker) (duration : Option String)
    (opIdStr : String) (entryType : LogEntryType) (day now : Nat)
    (s : TrackerState) : Option TrackerState :=
  asState (engine fuel (Call.logLineC moniker duration opIdStr entryType)
    day now s)

/-- `OperationsTracker.#trimLogBuffer` (see `engine`). -/
def trimLogBuffer (fuel day now : Nat) (s : TrackerState) :
    Option TrackerState :=
  asState (engine fuel Call.trimC day now s)

/-- The `TrackedOperation` constructor (see `engine`). -/
def mkTrackedOperation (fuel : Nat) (opId : Nat × String) (name : String)
    (parent : Option TrackedOperation) (isContainer : Bool)
    (iconStr : Option String) (avoidConsole : Bool) (info : List JsVal)
    (day now : Nat) (s : TrackerState) : Option (TrackerState × Nat) :=
  asRef (engine fuel
    (Call.mkOpC opId name parent isContainer iconStr avoidConsole info)
    day now s)

/-- `OperationsTracker.startOperation` (see `engine`). -/
def startOperation (fuel : Nat) (name : String) (info : List JsVal)
    (day now : Nat) (s : TrackerState) : Option (TrackerState × Nat) :=
  asRef (engine fuel (Call.startOperationC name info) day now s)

/-- `TrackedOperation.setCompleted` (see `engine`). -/
def setCompleted (fuel : Nat) (r : Nat) (isSuccess : Bool)
    (info : List JsVal) (day now : Nat) (s : TrackerState) :
    Option (TrackerState × Bool) :=
  asFlag (engine fuel (Call.setCompletedC r isSuccess info) day now s)

/-- `TrackedOperation.addInfo` (see `engine`). -/
def addInfo (fuel : Nat) (r : Nat) (data : List JsVal) (day now : Nat)
    (s : TrackerState) : Option TrackerState :=
  asState (engine fuel (Call.addInfoC r data) day now s)

/-- `OperationsTracker.observeEvent` (see `engine`). -/
def observeEvent (fuel : Nat) (kind : EventLevelKind) (name : String)
    (eventInfo : Option (Sum (List JsVal) JsVal)) (moreInfo : List JsVal)
    (day now : Nat) (s : TrackerState) :
    Option (TrackerState × EventDisplayHandle) :=
  asHandle (engine fuel (Call.observeEventC kind name eventInfo moreInfo)
    day now s)

/-- `OperationsTracker.dropLogEntriesForCompletedOps` (see `engine`),
returning the final state and the spliced-out batches. -/
def dropLogEntriesForCompletedOps (fuel day now : Nat) (s : TrackerState) :
    Option (TrackerState × List (List LogEntry × List String)) :=
  match asDropped (engine fuel Call.dropC day now s) with
  | some (s, _, acc) => some (s, acc)
  | none => none

/-- `TrackedOperation.setSuccess(...info)`. -/
def setSuccess (fuel : Nat) (r : Nat) (info : List JsVal) (day now : Nat)
    (s : TrackerState) : Option (TrackerState × Bool) :=
  setCompleted fuel r true info day now s

/-- `TrackedOperation.setFailure(...info)`. -/
def setFailure (fuel : Nat) (r : Nat) (info : List JsVal) (day now : Nat)
    (s : TrackerState) : Option (TrackerState × Bool) :=
  setCompleted fuel r false info day now s

/-- The fixed message `setFailureAndRethrow` appends to the failure info. -/
def errorRethrownMsg : String :=
  "The error will be rethrown and will propagate up the stack."

/-- `TrackedOperation.setFailureAndRethrow(error, ...moreInfo)`: records the
failure via `setFailure(error, msg, ...moreInfo)` and then throws `error`.
The thrown value is returned alongside the state. -/
def setFailureAndRethrow (fuel : Nat) (r : Nat) (error : JsVal)
    (moreInfo : List JsVal) (day now : Nat) (s : TrackerState) :
    Option (TrackerState × JsVal) :=
  do
    let (s, _) ← setFailure fuel r
      (error :: JsVal.strVal errorRethrownMsg :: moreInfo) day now s
    pure (s, error)

/-- The expiry of an `EventDisplayHandle`: the delay's timer fires
(`setTimeout` callback: `#isDelayCompleted = true`, resolve `true`), and the
promise's `finally(this.#complete)` removes the event from the active
stack. -/
def eventExpire (h : EventDisplayHandle) (s : TrackerState) :
    EventDisplayHandle × TrackerState :=
  ({ h with delay := h.delay.timerFire }, removeFromActiveOpsStack s h.opRef)

/-! ## Concrete scenario runs

All runs use the fixed calendar day 1 with the tracker fresh (so the first
line inserts one date marker), ample fuel, and timestamps as noted. -/

/-- A configuration in the proportions of the source defaults. -/
def bigBufferConfig : TrackerConfig :=
  { logBufferSize := 105000, logBufferCleanStep := 10000,
    eventDisplayDurationMSec := 3000 }

/-- The number of "Trimming Log Buffer" operations a state has performed
(each `#trimLogBuffer` pass creates exactly one). -/
def trimOpsCount (s : TrackerState) : Nat :=
  (s.ops.filter (fun o => o.name = "Trimming Log Buffer")).length

/-- C2's scenario: start container `A`, start container `B` (child of `A`),
`B.setSuccess()`, `A.setSuccess()`.  Returns the final state, the references
of `A` and `B`, and the active stack after each of the five steps. -/
def scenarioC2 :
    Option (TrackerState × Nat × Nat × List (List Nat)) := do
  let s0 := trackerInit "S" bigBufferConfig
  let (s1, a) ← startOperation 50 "A" [] 1 0 s0
  let (s2, b) ← startOperation 50 "B" [] 1 0 s1
  let (s3, _) ← setSuccess 50 b [] 1 0 s2
  let (s4, _) ← setSuccess 50 a [] 1 0 s3
  pure (s4, a, b, [s0.activeOps, s1.activeOps, s2.activeOps, s3.activeOps,
                   s4.activeOps])

/-- C1's trim scenario with `logBufferSize = 10` and a clean step (9) large
enough for the trim to terminate: five root `startOperation` calls emit ten
operation log lines (plus the initial date marker), crossing the threshold at
the tenth.  Returns the buffer length after each call and the final state. -/
def scenarioC1 : Option (List Nat × TrackerState) := do
  let s0 := trackerInit "S"
    { logBufferSize := 10, logBufferCleanStep := 9,
      eventDisplayDurationMSec := 3000 }
  let (s1, _) ← startOperation 50 "Op1" [] 1 0 s0
  let (s2, _) ← startOperation 50 "Op2" [] 1 0 s1
  let (s3, _) ← startOperation 50 "Op3" [] 1 0 s2
  let (s4, _) ← startOperation 50 "Op4" [] 1 0 s3
  let (s5, _) ← startOperation 50 "Op5" [] 1 0 s4
  pure ([s1.loggedOps.length, s2.loggedOps.length, s3.loggedOps.length,
         s4.loggedOps.length, s5.loggedOps.length], s5)

/-- The claim's own trim parameters, `logBufferSize = 10` and
`logBufferCleanStep = 4`: the same five starts, run with the given fuel.
The trim triggered at the tenth line re-triggers on its own success line
(the trim removes 4 entries but emits 5), so the run consumes any fuel. -/
def scenarioC1claimCfg (fuel : Nat) : Option TrackerState := do
  let s ← pure (trackerInit "S"
    { logBufferSize := 10, logBufferCleanStep := 4,
      eventDisplayDurationMSec := 3000 })
  let (s, _) ← startOperation fuel "Op1" [] 1 0 s
  let (s, _) ← startOperation fuel "Op2" [] 1 0 s
  let (s, _) ← startOperation fuel "Op3" [] 1 0 s
  let (s, _) ← startOperation fuel "Op4" [] 1 0 s
  let (s, _) ← startOperation fuel "Op5" [] 1 0 s
  pure s

/-- C3's scenario: a root container, then `addInfo("x")` 5 milliseconds
later.  Returns the state before the `addInfo`, the state after it and the
operation's reference. -/
def scenarioC3 : Option (TrackerState × TrackerState × Nat) := do
  let s0 := trackerInit "S" bigBufferConfig
  let (s1, a) ← startOperation 50 "A" [] 1 0 s0
  let s2 ← addInfo 50 a [JsVal.strVal "x"] 1 5 s1
  pure (s1, s2, a)

/-- C6's scenario: five root containers `Y1..Y5` started and completed (15
operation lines, plus the date marker), then a root container `X` started
(entries 16–17, still active), then `dropLogEntriesForCompletedOps()` with
`logBufferSize = 20, logBufferCleanStep = 6`: the drop's own two start lines
fill the buffer to exactly 20, and the progress `addInfo` of the first splice
iteration overflows it, triggering a trim in the middle of the drop. -/
def scenarioC6 :
    Option (TrackerState × List (List LogEntry × List String)) := do
  let s := trackerInit "S"
    { logBufferSize := 20, logBufferCleanStep := 6,
      eventDisplayDurationMSec := 3000 }
  let (s, y1) ← startOperation 60 "Y1" [] 1 0 s
  let (s, _) ← setSuccess 60 y1 [] 1 0 s
  let (s, y2) ← startOperation 60 "Y2" [] 1 0 s
  let (s, _) ← setSuccess 60 y2 [] 1 0 s
  let (s, y3) ← startOperation 60 "Y3" [] 1 0 s
  let (s, _) ← setSuccess 60 y3 [] 1 0 s
  let (s, y4) ← startOperation 60 "Y4" [] 1 0 s
  let (s, _) ← setSuccess 60 y4 [] 1 0 s
  let (s, y5) ← startOperation 60 "Y5" [] 1 0 s
  let (s, _) ← setSuccess 60 y5 [] 1 0 s
  let (s, _x) ← startOperation 60 "X" [] 1 0 s
  dropLogEntriesForCompletedOps 60 1 0 s

/-- The operation-id string of `X` in `scenarioC6` (the sixth id the session
allocates; ids are formatted with the off-by-one of `formatId`). -/
def idStrX : String := "S.0007"

/-- C7's counterexample scenario: a root container completed with
`setSuccess`, then `setFailureAndRethrow(Error "boom")` on the completed
operation.  Returns the state before the rethrow call, the state after it,
the thrown value and the operation's reference. -/
def scenarioC7 : Option (TrackerState × TrackerState × JsVal × Nat) := do
  let s0 := trackerInit "S" bigBufferConfig
  let (s1, a) ← startOperation 50 "A" [] 1 0 s0
  let (s2, _) ← setSuccess 50 a [] 1 5 s1
  let (s3, thrown) ← setFailureAndRethrow 50 a (JsVal.errVal "boom") [] 1 9 s2
  pure (s2, s3, thrown, a)

/-- C10's scenario: `observeEvent(Err, "disk full")` on a fresh tracker with
`eventDisplayDurationMSec = 100`. -/
def scenarioC10 : Option (TrackerState × EventDisplayHandle) :=
  observeEvent 50 EventLevelKind.Err "disk full" none [] 1 0
    (trackerInit "S"
      { logBufferSize := 105000, logBufferCleanStep := 10000,
        eventDisplayDurationMSec := 100 })

/-- The tracker of `scenarioC10` before the event is observed. -/
def stateC10 : TrackerState :=
  trackerInit "S"
    { logBufferSize := 105000, logBufferCleanStep := 10000,
      eventDisplayDurationMSec := 100 }

/-- The result of `scenarioC10`, extracted. -/
def outC10 : TrackerState × EventDisplayHandle :=
  scenarioC10.getD (stateC10, { opRef := 0, delay := DelayPromise.create 0 })

/-- A state with one already-completed root operation (reference 0):
container `A` started at time 0 and completed with success at time 5. -/
def stateC5 : TrackerState :=
  (do
    let s := trackerInit "S" bigBufferConfig
    let (s, a) ← startOperation 50 "A" [] 1 0 s
    let (s, _) ← setSuccess 50 a [] 1 5 s
    pure s).getD (trackerInit "S" bigBufferConfig)

/-- Heap evolution of one engine call: the reference counter grows, every
operation allocated before the call is unchanged unless it is the call's
explicit target `tgt`, and no operation's `nestDepth` ever changes. -/
def presH (s s' : TrackerState) (tgt : Option Nat) : Prop :=
  s.nextRef ≤ s'.nextRef ∧
  (∀ r, r < s.nextRef → tgt ≠ some r → findOp s' r = findOp s r) ∧
  (∀ r, r < s.nextRef →
    (findOp s' r).map (fun o => o.nestDepth) =
      (findOp s r).map (fun o => o.nestDepth))

/-- The operation an engine call explicitly mutates, if any. -/
def callTarget : Call → Option Nat
  | Call.setCompletedC r _ _ => some r
  | Call.addInfoC r _ => some r
  | Call.dropLoopC r _ _ _ => some r
  | _ => none

/-! ## Concrete states for the completion and nesting claims -/

/-- A placeholder operation record (only used as a `getD` default; all the
lookups below succeed). -/
def defaultOp : TrackedOperation :=
  { ref := 0, opIdNum := 0, opIdStr := "", name := "", parentRef := none,
    nestDepth := 0, isContainer := false, avoidConsole := false, info := [],
    isSucceeded := false, isFailed := false, startTime := 0, endTime := none }

/-- The already-completed operation of `stateC5`. -/
def opC5 : TrackedOperation := (findOp stateC5 0).getD defaultOp

/-- A state with one still-running root container `A` (reference 0), started
at time 0. -/
def stateC7w : TrackerState :=
  ((startOperation 50 "A" [] 1 0 (trackerInit "S" bigBufferConfig)).map
    (fun x => x.1)).getD (trackerInit "S" bigBufferConfig)

/-- The running operation of `stateC7w`. -/
def opC7w : TrackedOperation := (findOp stateC7w 0).getD defaultOp

/-- The state and thrown value of `setFailureAndRethrow(Error "boom")` on the
running operation of `stateC7w` at time 9. -/
def pairC7w : TrackerState × JsVal :=
  (setFailureAndRethrow 50 0 (JsVal.errVal "boom") [] 1 9 stateC7w).getD
    (stateC7w, JsVal.strVal "")

/-- The state and fresh reference of `startOperation("B")` on `stateC7w`
(so `B` is a child of the running container `A`). -/
def pairC8 : TrackerState × Nat :=
  (startOperation 50 "B" [] 1 0 stateC7w).getD (stateC7w, 0)


/-! ## Trim-divergence bookkeeping -/

/-- A lower bound on the number of log-buffer entries an engine call appends
(`logLine` appends its entry; a container construction also emits its
parent-info line; other calls may append nothing). -/
def minAppend : Call → Nat
  | Call.logLineC _ _ _ _ => 1
  | Call.mkOpC _ _ _ isContainer _ _ _ => if isContainer then 2 else 1
  | Call.startOperationC _ _ => 2
  | Call.addInfoC _ _ => 1
  | _ => 0

/-- The calls that splice entries out of the buffer themselves (the
compaction loop), rather than only through trimming. -/
def callDrops : Call → Bool
  | Call.dropLoopC _ _ _ _ => true
  | Call.dropC => true
  | _ => false

end ExpLensTracker

namespace ExpLensTracker

/-! ## Engine lemmas -/

theorem asState_eq_some {x : Option (TrackerState × EngineResult)}
    {s' : TrackerState} :
    asState x = some s' ↔ ∃ res, x = some (s', res) := by
  cases x with
  | none => simp [asState]
  | some p => cases p with | mk a b => simp [asState, eq_comm]

theorem asRef_eq_some {x : Option (TrackerState × EngineResult)}
    {p : TrackerState × Nat} :
    asRef x = some p ↔ x = some (p.1, EngineResult.refRes p.2) := by
  cases x with
  | none => simp [asRef]
  | some q =>
    obtain ⟨a, b⟩ := q
    obtain ⟨p1, p2⟩ := p
    cases b <;> simp [asRef]

theorem asFlag_eq_some {x : Option (TrackerState × EngineResult)}
    {p : TrackerState × Bool} :
    asFlag x = some p ↔ x = some (p.1, EngineResult.flagRes p.2) := by
  cases x with
  | none => simp [asFlag]
  | some q =>
    obtain ⟨a, b⟩ := q
    obtain ⟨p1, p2⟩ := p
    cases b <;> simp [asFlag]

theorem asHandle_eq_some {x : Option (TrackerState × EngineResult)}
    {p : TrackerState × EventDisplayHandle} :
    asHandle x = some p ↔ x = some (p.1, EngineResult.handleRes p.2) := by
  cases x with
  | none => simp [asHandle]
  | some q =>
    obtain ⟨a, b⟩ := q
    obtain ⟨p1, p2⟩ := p
    cases b <;> simp [asHandle]

theorem asDropped_eq_some {x : Option (TrackerState × EngineResult)}
    {p : TrackerState × Nat × List (List LogEntry × List String)} :
    asDropped x = some p ↔
      x = some (p.1, EngineResult.droppedRes p.2.1 p.2.2) := by
  cases x with
  | none => simp [asDropped]
  | some q =>
    obtain ⟨a, b⟩ := q
    obtain ⟨p1, p2, p3⟩ := p
    cases b <;> simp [asDropped]

theorem findOp_logDateIfChanged (day : Nat) (s : TrackerState) (r : Nat) :
    findOp (logDateIfChanged day s) r = findOp s r := by
  unfold logDateIfChanged
  split <;> rfl

theorem nextRef_logDateIfChanged (day : Nat) (s : TrackerState) :
    (logDateIfChanged day s).nextRef = s.nextRef := by
  unfold logDateIfChanged
  split <;> rfl

theorem findOp_removeFromActiveOpsStack (s : TrackerState) (r0 r : Nat) :
    findOp (removeFromActiveOpsStack s r0) r = findOp s r := by
  unfold removeFromActiveOpsStack
  split
  · rfl
  · split <;> rfl

theorem nextRef_removeFromActiveOpsStack (s : TrackerState) (r0 : Nat) :
    (removeFromActiveOpsStack s r0).nextRef = s.nextRef := by
  unfold removeFromActiveOpsStack
  split
  · rfl
  · split <;> rfl

theorem findOp_updateOp_ne (s : TrackerState) (r0 : Nat)
    (op : TrackedOperation) (r : Nat) (h : r ≠ r0) (hop : op.ref = r0) :
    findOp (updateOp s r0 op) r = findOp s r := by
  show List.find? _ (s.ops.map _) = List.find? _ s.ops
  induction s.ops with
  | nil => rfl
  | cons a l ihl =>
    rw [List.map_cons]
    by_cases ha : a.ref = r0
    · have h1 : (if a.ref = r0 then op else a) = op := if_pos ha
      rw [h1]
      rw [List.find?_cons_of_neg _ (by simp [hop]; exact fun e => h e.symm)]
      rw [List.find?_cons_of_neg _ (by simp [ha]; exact fun e => h e.symm)]
      exact ihl
    · have h1 : (if a.ref = r0 then op else a) = a := if_neg ha
      rw [h1]
      by_cases har : a.ref = r
      · rw [List.find?_cons_of_pos _ (by simp [har]),
          List.find?_cons_of_pos _ (by simp [har])]
      · rw [List.find?_cons_of_neg _ (by simp [har]),
          List.find?_cons_of_neg _ (by simp [har])]
        exact ihl

theorem findOp_updateOp_self (s : TrackerState) (r0 : Nat)
    (op op0 : TrackedOperation) (h : findOp s r0 = some op0)
    (hop : op.ref = r0) :
    findOp (updateOp s r0 op) r0 = some op := by
  revert h
  show List.find? _ s.ops = _ → List.find? _ (s.ops.map _) = _
  induction s.ops with
  | nil => intro h; exact absurd h (by simp)
  | cons a l ihl =>
    intro h
    rw [List.map_cons]
    by_cases ha : a.ref = r0
    · have h1 : (if a.ref = r0 then op else a) = op := if_pos ha
      rw [h1, List.find?_cons_of_pos _ (by simp [hop])]
    · have h1 : (if a.ref = r0 then op else a) = a := if_neg ha
      rw [h1, List.find?_cons_of_neg _ (by simp [ha])]
      apply ihl
      rw [List.find?_cons_of_neg _ (by simp [ha])] at h
      exact h

theorem findOp_updateOp_none (s : TrackerState) (r0 : Nat)
    (op : TrackedOperation) (h : findOp s r0 = none) :
    findOp (updateOp s r0 op) r0 = none := by
  revert h
  show List.find? _ s.ops = _ → List.find? _ (s.ops.map _) = _
  induction s.ops with
  | nil => intro _; rfl
  | cons a l ihl =>
    intro h
    by_cases ha : a.ref = r0
    · rw [List.find?_cons_of_pos _ (by simp [ha])] at h
      exact absurd h (by simp)
    · rw [List.find?_cons_of_neg _ (by simp [ha])] at h
      rw [List.map_cons]
      have h1 : (if a.ref = r0 then op else a) = a := if_neg ha
      rw [h1, List.find?_cons_of_neg _ (by simp [ha])]
      exact ihl h

theorem findOp_updateOp_depth (s : TrackerState) (r0 : Nat)
    (op : TrackedOperation) (hop : op.ref = r0)
    (hd : ∀ o, findOp s r0 = some o → op.nestDepth = o.nestDepth) (r : Nat) :
    (findOp (updateOp s r0 op) r).map (fun o => o.nestDepth) =
      (findOp s r).map (fun o => o.nestDepth) := by
  by_cases hr : r = r0
  · subst hr
    cases h0 : findOp s r with
    | none => rw [findOp_updateOp_none s r op h0]
    | some o =>
      rw [findOp_updateOp_self s r op o h0 hop]
      simp [hd o h0]
  · rw [findOp_updateOp_ne s r0 op r hr hop]

theorem nextRef_updateOp (s : TrackerState) (r0 : Nat)
    (op : TrackedOperation) : (updateOp s r0 op).nextRef = s.nextRef := rfl

/-- A found operation carries the reference it was found under. -/
theorem findOp_ref {s : TrackerState} {r : Nat} {op : TrackedOperation}
    (h : findOp s r = some op) : op.ref = r := by
  have := List.find?_some h
  simpa using this

theorem ops_logDateIfChanged (day : Nat) (s : TrackerState) :
    (logDateIfChanged day s).ops = s.ops := by
  unfold logDateIfChanged
  split <;> rfl

theorem ops_removeFromActiveOpsStack (s : TrackerState) (r0 : Nat) :
    (removeFromActiveOpsStack s r0).ops = s.ops := by
  unfold removeFromActiveOpsStack
  split
  · rfl
  · split <;> rfl

theorem presH_of_eq {s s' : TrackerState} (tgt : Option Nat)
    (hops : s'.ops = s.ops) (hnext : s'.nextRef = s.nextRef) :
    presH s s' tgt := by
  refine ⟨hnext.ge, ?_, ?_⟩
  · intro r _ _
    unfold findOp
    rw [hops]
  · intro r _
    unfold findOp
    rw [hops]

theorem presH_rfl (s : TrackerState) (tgt : Option Nat) : presH s s tgt :=
  presH_of_eq tgt rfl rfl

theorem presH_comp {s s1 s2 : TrackerState} {t1 t2 : Option Nat}
    (h1 : presH s s1 t1) (h2 : presH s1 s2 t2)
    (ht2 : ∀ t, t2 = some t → s.nextRef ≤ t ∨ t1 = some t) :
    presH s s2 t1 := by
  obtain ⟨m1, p1, d1⟩ := h1
  obtain ⟨m2, p2, d2⟩ := h2
  refine ⟨le_trans m1 m2, ?_, ?_⟩
  · intro r hr hne
    rw [p2 r (lt_of_lt_of_le hr m1) ?_, p1 r hr hne]
    intro he
    rcases ht2 _ he with hc | hc
    · omega
    · exact hne hc
  · intro r hr
    rw [d2 r (lt_of_lt_of_le hr m1), d1 r hr]

theorem presH_widen {s s' : TrackerState} (t : Option Nat)
    (h : presH s s' none) : presH s s' t := by
  obtain ⟨m, p, d⟩ := h
  exact ⟨m, fun r hr _ => p r hr (by simp), d⟩

theorem findOp_cons_ne {s : TrackerState} {op : TrackedOperation} {k : Nat}
    (r : Nat) (h : op.ref ≠ r) :
    findOp { s with ops := op :: s.ops, nextRef := k } r = findOp s r := by
  show List.find? _ (op :: s.ops) = _
  rw [List.find?_cons_of_neg _ (by simp [h])]
  rfl

theorem presH_cons (s : TrackerState) (op : TrackedOperation)
    (hop : op.ref = s.nextRef) (tgt : Option Nat) :
    presH s { s with ops := op :: s.ops, nextRef := s.nextRef + 1 } tgt := by
  refine ⟨by simp, ?_, ?_⟩
  · intro r hr _
    exact findOp_cons_ne r (by omega)
  · intro r hr
    rw [findOp_cons_ne r (by omega)]

theorem presH_updateOp (s : TrackerState) (r0 : Nat)
    (op op0 : TrackedOperation) (hf : findOp s r0 = some op0)
    (hop : op.ref = r0) (hdep : op.nestDepth = op0.nestDepth) :
    presH s (updateOp s r0 op) (some r0) := by
  refine ⟨le_of_eq (nextRef_updateOp s r0 op).symm, ?_, ?_⟩
  · intro r _ hne
    exact findOp_updateOp_ne s r0 op r (fun e => hne (by rw [e])) hop
  · intro r _
    exact findOp_updateOp_depth s r0 op hop
      (fun o ho => by rw [hf] at ho; injection ho with ho; rw [← ho]; exact hdep) r

theorem findOp_cons_self (s : TrackerState) (op : TrackedOperation)
    (k : Nat) :
    findOp { s with ops := op :: s.ops, nextRef := k } op.ref = some op := by
  show List.find? _ (op :: s.ops) = some op
  rw [List.find?_cons_of_pos _ (by simp)]

set_option linter.unusedVariables false

theorem enginePreserves : ∀ (fuel : Nat) (call : Call) (day now : Nat)
    (s s' : TrackerState) (res : EngineResult),
    engine fuel call day now s = some (s', res) →
    presH s s' (callTarget call) ∧
    (∀ r2, res = EngineResult.refRes r2 → s.nextRef ≤ r2) := by
  intro fuel
  induction fuel with
  | zero =>
    intro call day now s s' res h
    simp [engine] at h
  | succ n ih =>
    intro call day now s s' res h
    cases call with
    | logLineC moniker duration opIdStr entryType =>
      simp only [engine, Option.bind_eq_bind'] at h
      split at h
      · have hmain := ih _ day now _ s' res h
        have hpure : presH s
            { logDateIfChanged day s with
              loggedOps := (logDateIfChanged day s).loggedOps ++
                [{ type := entryType, opId := some opIdStr,
                   moniker := some moniker, duration := duration }] }
            (none : Option Nat) :=
          presH_of_eq none (ops_logDateIfChanged day s)
            (nextRef_logDateIfChanged day s)
        constructor
        · exact presH_comp hpure hmain.1 (by simp [callTarget])
        · intro r2 hr2
          exact le_trans (le_of_eq (nextRef_logDateIfChanged day s).symm)
            (hmain.2 r2 hr2)
      · injection h with h1
        injection h1 with h1 h2
        subst h1
        constructor
        · exact presH_widen _ (presH_of_eq none (ops_logDateIfChanged day s)
            (nextRef_logDateIfChanged day s))
        · intro r2 hr2
          rw [← h2] at hr2
          cases hr2
    | trimC =>
      simp only [engine, Option.bind_eq_bind'] at h
      split at h
      · injection h with h1
        injection h1 with h1 h2
        subst h1
        exact ⟨presH_rfl s _, fun r2 hr2 => by rw [← h2] at hr2; cases hr2⟩
      · rw [Option.bind_eq_some'] at h
        obtain ⟨⟨s2, trimRef⟩, hA, h⟩ := h
        rw [asRef_eq_some] at hA
        have ihA := ih _ day now _ _ _ hA
        rw [Option.bind_eq_some'] at h
        obtain ⟨s4, hB, h⟩ := h
        rw [asState_eq_some] at hB
        obtain ⟨resB, hB⟩ := hB
        have ihB := ih _ day now _ _ _ hB
        rw [Option.bind_eq_some'] at h
        obtain ⟨⟨s6, b⟩, hC, h⟩ := h
        rw [asFlag_eq_some] at hC
        have ihC := ih _ day now _ _ _ hC
        simp only [Option.pure_def, Option.some.injEq, Prod.mk.injEq] at h
        obtain ⟨h1, h2⟩ := h
        subst h1
        have hRefHigh : s.nextRef ≤ trimRef := ihA.2 trimRef rfl
        -- compose: s → s1 (guard flag) → s2 (startOperation)
        --   → s3 (splice and date restore) → s4 (addInfo, target trimRef)
        --   → s5 (guard flag) → s6 (setCompleted, target trimRef)
        have p1 : presH s { s with trimmingLogBufferInProgress := true }
            (none : Option Nat) := presH_of_eq none rfl rfl
        have p2 : presH s s2 (none : Option Nat) :=
          presH_comp p1 ihA.1 (by simp [callTarget])
        have p3 : presH s2
            (match (s2.loggedOps.take s2.config.logBufferCleanStep).reverse.find?
                (fun e => e.type = LogEntryType.Date) with
             | some d =>
               { s2 with loggedOps :=
                   d :: s2.loggedOps.drop s2.config.logBufferCleanStep }
             | none =>
               { s2 with loggedOps :=
                   s2.loggedOps.drop s2.config.logBufferCleanStep })
            (none : Option Nat) := by
          cases (s2.loggedOps.take s2.config.logBufferCleanStep).reverse.find?
              (fun e => e.type = LogEntryType.Date) with
          | none => exact presH_of_eq none rfl rfl
          | some d => exact presH_of_eq none rfl rfl
        have p4 : presH s s4 (none : Option Nat) := by
          refine presH_comp (presH_comp p2 p3 (by simp)) ihB.1 ?_
          intro t ht
          simp only [callTarget] at ht
          injection ht with ht
          exact Or.inl (by omega)
        have p5 : presH s s6 (none : Option Nat) := by
          refine presH_comp p4 ihC.1 ?_
          intro t ht
          simp only [callTarget] at ht
          injection ht with ht
          exact Or.inl (by omega)
        exact ⟨presH_widen _ p5, fun r2 hr2 => by rw [← h2] at hr2; cases hr2⟩
    | logErrorsC opIdStr avoidConsole errors =>
      simp only [engine] at h
      split at h
      · injection h with h1
        injection h1 with h1 h2
        subst h1
        exact ⟨presH_rfl s _, fun r2 hr2 => by rw [← h2] at hr2; cases hr2⟩
      · have hmain := ih _ day now _ s' res h
        exact ⟨presH_widen _ (presH_widen _ hmain.1), hmain.2⟩
    | mkOpC opId name parent isContainer iconStr avoidConsole info =>
      simp only [engine, Option.bind_eq_bind'] at h
      rw [Option.bind_eq_some'] at h
      obtain ⟨s3, hA, h⟩ := h
      rw [asState_eq_some] at hA
      obtain ⟨resA, hA⟩ := hA
      have ihA := ih _ day now _ _ _ hA
      have p2 : presH s s3 (none : Option Nat) :=
        presH_comp (presH_cons s _ rfl none) ihA.1 (by simp [callTarget])
      have finish : ∀ s5 : TrackerState, presH s s5 (none : Option Nat) →
          (pure (addToActiveOpsStack s5 s.nextRef, EngineResult.refRes s.nextRef) :
            Option (TrackerState × EngineResult)) = some (s', res) →
          presH s s' (callTarget (Call.mkOpC opId name parent isContainer
            iconStr avoidConsole info)) ∧
          (∀ r2, res = EngineResult.refRes r2 → s.nextRef ≤ r2) := by
        intro s5 hp hfin
        simp only [Option.pure_def, Option.some.injEq, Prod.mk.injEq] at hfin
        obtain ⟨hf1, hf2⟩ := hfin
        subst hf1
        constructor
        · exact presH_widen _ (presH_comp hp (presH_of_eq none rfl rfl) (by simp))
        · intro r2 hr2
          rw [← hf2] at hr2
          injection hr2 with hr2
          omega
      have step : ∀ s4 : TrackerState, presH s s4 (none : Option Nat) →
          (match getErrors info with
           | some errs =>
             (asState (engine n (Call.logErrorsC (s.sessionId ++ "." ++ opId.2)
               avoidConsole errs) day now s4)).bind
               fun y => pure (addToActiveOpsStack y s.nextRef,
                 EngineResult.refRes s.nextRef)
           | none =>
             (pure s4 : Option TrackerState).bind
               fun y => pure (addToActiveOpsStack y s.nextRef,
                 EngineResult.refRes s.nextRef)) = some (s', res) →
          presH s s' (callTarget (Call.mkOpC opId name parent isContainer
            iconStr avoidConsole info)) ∧
          (∀ r2, res = EngineResult.refRes r2 → s.nextRef ≤ r2) := by
        intro s4 hp4 hm
        cases hge : getErrors info with
        | some errs =>
          rw [hge] at hm
          rw [Option.bind_eq_some'] at hm
          obtain ⟨s5, hC, hm⟩ := hm
          rw [asState_eq_some] at hC
          obtain ⟨resC, hC⟩ := hC
          exact finish s5
            (presH_comp hp4 (ih _ day now _ _ _ hC).1 (by simp [callTarget])) hm
        | none =>
          rw [hge] at hm
          simp only [Option.pure_def, Option.some_bind] at hm
          exact finish s4 hp4 hm
      split at h
      · simp only [Option.pure_def, Option.some_bind] at h
        exact step s3 p2 h
      · rw [Option.bind_eq_some'] at h
        obtain ⟨s4, hB, h⟩ := h
        rw [asState_eq_some] at hB
        obtain ⟨resB, hB⟩ := hB
        exact step s4
          (presH_comp p2 (ih _ day now _ _ _ hB).1 (by simp [callTarget])) h
    | startOperationC name info =>
      simp only [engine, Option.bind_eq_bind'] at h
      rw [Option.bind_eq_some'] at h
      obtain ⟨⟨opId, gen⟩, hg, h⟩ := h
      have hmain := ih _ day now _ s' res h
      constructor
      · exact presH_comp (presH_of_eq none rfl rfl) hmain.1 (by simp [callTarget])
      · exact hmain.2
    | setCompletedC r0 isSuccess info =>
      simp only [engine, Option.bind_eq_bind'] at h
      rw [Option.bind_eq_some'] at h
      obtain ⟨op, hf, h⟩ := h
      split at h
      · simp only [Option.pure_def, Option.some.injEq, Prod.mk.injEq] at h
        obtain ⟨h1, h2⟩ := h
        subst h1
        exact ⟨presH_rfl s _, fun r2 hr2 => by rw [← h2] at hr2; cases hr2⟩
      · have finish : ∀ (c : Bool) (s6 : TrackerState), presH s s6 (some r0) →
            (pure ((if c then removeFromActiveOpsStack s6 r0
                else s6), EngineResult.flagRes true) :
              Option (TrackerState × EngineResult)) = some (s', res) →
            presH s s' (callTarget (Call.setCompletedC r0 isSuccess info)) ∧
            (∀ r2, res = EngineResult.refRes r2 → s.nextRef ≤ r2) := by
          intro c s6 hp hfin
          simp only [Option.pure_def, Option.some.injEq, Prod.mk.injEq] at hfin
          obtain ⟨hf1, hf2⟩ := hfin
          subst hf1
          refine ⟨presH_comp hp (presH_of_eq none ?_ ?_) (by simp), ?_⟩
          · split
            · exact ops_removeFromActiveOpsStack s6 r0
            · rfl
          · split
            · exact nextRef_removeFromActiveOpsStack s6 r0
            · rfl
          · intro r2 hr2
            rw [← hf2] at hr2
            cases hr2
        cases hge : getErrors info with
        | some errs =>
          rw [hge] at h
          rw [Option.bind_eq_some'] at h
          obtain ⟨s5, hC, h⟩ := h
          rw [asState_eq_some] at hC
          obtain ⟨resC, hC⟩ := hC
          rw [Option.bind_eq_some'] at h
          obtain ⟨s6, hD, h⟩ := h
          rw [asState_eq_some] at hD
          obtain ⟨resD, hD⟩ := hD
          have p1 : presH s s5 (some r0) := by
            refine presH_comp (presH_updateOp s r0 _ op hf ?_ ?_)
              (ih _ day now _ _ _ hC).1 ?_
            · have hor := findOp_ref hf
              simp only [completedOp]
              split <;> split <;> exact hor
            · simp only [completedOp]
              split <;> split <;> rfl
            · simp [callTarget]
          have p2 : presH s s6 (some r0) :=
            presH_comp p1 (ih _ day now _ _ _ hD).1 (by simp [callTarget])
          exact finish _ s6 p2 h
        | none =>
          rw [hge] at h
          simp only [Option.pure_def, Option.some_bind] at h
          rw [Option.bind_eq_some'] at h
          obtain ⟨s6, hD, h⟩ := h
          rw [asState_eq_some] at hD
          obtain ⟨resD, hD⟩ := hD
          have p2 : presH s s6 (some r0) := by
            refine presH_comp (presH_updateOp s r0 _ op hf ?_ ?_)
              (ih _ day now _ _ _ hD).1 ?_
            · have hor := findOp_ref hf
              simp only [completedOp]
              split <;> split <;> exact hor
            · simp only [completedOp]
              split <;> split <;> rfl
            · simp [callTarget]
          exact finish _ s6 p2 h
    | addInfoC r0 data =>
      simp only [engine, Option.bind_eq_bind'] at h
      rw [Option.bind_eq_some'] at h
      obtain ⟨op, hf, h⟩ := h
      rw [Option.bind_eq_some'] at h
      obtain ⟨s4, hB, h⟩ := h
      rw [asState_eq_some] at hB
      obtain ⟨resB, hB⟩ := hB
      have p1 : presH s s4 (some r0) := by
        refine presH_comp (presH_updateOp s r0 _ op hf ?_ ?_)
          (ih _ day now _ _ _ hB).1 ?_
        · exact (findOp_ref hf :)
        · rfl
        · simp [callTarget]
      have finish : ∀ s6 : TrackerState, presH s s6 (some r0) →
          (pure (s6, EngineResult.unitRes) :
            Option (TrackerState × EngineResult)) = some (s', res) →
          presH s s' (callTarget (Call.addInfoC r0 data)) ∧
          (∀ r2, res = EngineResult.refRes r2 → s.nextRef ≤ r2) := by
        intro s6 hp hfin
        simp only [Option.pure_def, Option.some.injEq, Prod.mk.injEq] at hfin
        obtain ⟨hf1, hf2⟩ := hfin
        subst hf1
        exact ⟨hp, fun r2 hr2 => by rw [← hf2] at hr2; cases hr2⟩
      cases hge : getErrors data with
      | some errs =>
        rw [hge] at h
        rw [Option.bind_eq_some'] at h
        obtain ⟨s6, hD, h⟩ := h
        rw [asState_eq_some] at hD
        obtain ⟨resD, hD⟩ := hD
        exact finish s6
          (presH_comp p1 (ih _ day now _ _ _ hD).1 (by simp [callTarget])) h
      | none =>
        rw [hge] at h
        simp only [Option.pure_def, Option.some_bind] at h
        exact finish s4 p1 h
    | observeEventC kind name eventInfo moreInfo =>
      simp only [engine, Option.bind_eq_bind'] at h
      rw [Option.bind_eq_some'] at h
      obtain ⟨⟨opId, gen⟩, hg, h⟩ := h
      rw [Option.bind_eq_some'] at h
      obtain ⟨⟨s2, r⟩, hA, h⟩ := h
      rw [asRef_eq_some] at hA
      have ihA := ih _ day now _ _ _ hA
      have hRefHigh : s.nextRef ≤ r := ihA.2 r rfl
      have p2 : presH s s2 (none : Option Nat) :=
        presH_comp (presH_of_eq none rfl rfl) ihA.1 (by simp [callTarget])
      have finish : ∀ (s4 : TrackerState) (hndl : EventDisplayHandle),
          presH s s4 (none : Option Nat) →
          (pure (s4, EngineResult.handleRes hndl) :
            Option (TrackerState × EngineResult)) = some (s', res) →
          presH s s' (callTarget (Call.observeEventC kind name eventInfo
            moreInfo)) ∧
          (∀ r2, res = EngineResult.refRes r2 → s.nextRef ≤ r2) := by
        intro s4 hndl hp hfin
        simp only [Option.pure_def, Option.some.injEq, Prod.mk.injEq] at hfin
        obtain ⟨hf1, hf2⟩ := hfin
        subst hf1
        exact ⟨presH_widen _ hp, fun r2 hr2 => by rw [← hf2] at hr2; cases hr2⟩
      split at h <;>
      · rw [Option.bind_eq_some'] at h
        obtain ⟨s3, hB, h⟩ := h
        rw [Option.bind_eq_some'] at h
        obtain ⟨⟨s4, b⟩, hC, h⟩ := h
        rw [asFlag_eq_some] at hC
        have ihC := ih _ day now _ _ _ hC
        have p3 : presH s s3 (none : Option Nat) := by
          first
          | (rw [asState_eq_some] at hB
             obtain ⟨resB, hB⟩ := hB
             refine presH_comp p2 (ih _ day now _ _ _ hB).1 ?_
             intro t ht
             simp only [callTarget] at ht
             injection ht with ht
             exact Or.inl (by omega))
          | (simp only [Option.pure_def, Option.some.injEq] at hB
             rw [← hB]
             exact p2)
        have p4 : presH s s4 (none : Option Nat) := by
          refine presH_comp p3 ihC.1 ?_
          intro t ht
          simp only [callTarget] at ht
          injection ht with ht
          exact Or.inl (by omega)
        exact finish s4 _ p4 h
    | dropLoopC dropRef dropFrom totalDropCount droppedAcc =>
      simp only [engine, Option.bind_eq_bind'] at h
      split at h
      · injection h with h1
        injection h1 with h1 h2
        subst h1
        exact ⟨presH_rfl s _, fun r2 hr2 => by rw [← h2] at hr2; cases hr2⟩
      · split at h
        · injection h with h1
          injection h1 with h1 h2
          subst h1
          exact ⟨presH_rfl s _, fun r2 hr2 => by rw [← h2] at hr2; cases hr2⟩
        · rw [Option.bind_eq_some'] at h
          obtain ⟨s2, hB, h⟩ := h
          rw [asState_eq_some] at hB
          obtain ⟨resB, hB⟩ := hB
          have ihB := ih _ day now _ _ _ hB
          have ihC := ih _ day now _ _ _ h
          refine ⟨presH_comp (presH_comp ihB.1 (presH_of_eq none ?_ ?_)
              (by simp)) ihC.1 (fun t ht => Or.inr ht),
            fun r2 hr2 => le_trans (le_trans ihB.1.1 (le_of_eq ?_))
              (ihC.2 r2 hr2)⟩
          · split
            · split <;> rfl
            · rfl
          · split
            · split <;> rfl
            · rfl
          · symm
            split
            · split <;> rfl
            · rfl
    | dropC =>
      simp only [engine, Option.bind_eq_bind'] at h
      rw [Option.bind_eq_some'] at h
      obtain ⟨⟨s2, dropRef⟩, hA, h⟩ := h
      rw [asRef_eq_some] at hA
      have ihA := ih _ day now _ _ _ hA
      have hRefHigh : s.nextRef ≤ dropRef := ihA.2 dropRef rfl
      have p2 : presH s s2 (none : Option Nat) :=
        presH_comp (presH_rfl s none) ihA.1 (by simp [callTarget])
      split at h
      · rw [Option.bind_eq_some'] at h
        obtain ⟨⟨s3, b⟩, hB, h⟩ := h
        rw [asFlag_eq_some] at hB
        have ihB := ih _ day now _ _ _ hB
        have p3 : presH s s3 (none : Option Nat) := by
          refine presH_comp p2 ihB.1 ?_
          intro t ht
          simp only [callTarget] at ht
          injection ht with ht
          exact Or.inl (by omega)
        simp only [Option.pure_def, Option.some.injEq, Prod.mk.injEq] at h
        obtain ⟨h1, h2⟩ := h
        subst h1
        exact ⟨presH_widen _ p3, fun r2 hr2 => by rw [← h2] at hr2; cases hr2⟩
      · rw [Option.bind_eq_some'] at h
        obtain ⟨⟨s3, tot, acc⟩, hB, h⟩ := h
        rw [asDropped_eq_some] at hB
        have ihB := ih _ day now _ _ _ hB
        have p3 : presH s s3 (none : Option Nat) := by
          refine presH_comp p2 ihB.1 ?_
          intro t ht
          simp only [callTarget] at ht
          injection ht with ht
          exact Or.inl (by omega)
        rw [Option.bind_eq_some'] at h
        obtain ⟨s4, hC, h⟩ := h
        rw [asState_eq_some] at hC
        obtain ⟨resC, hC⟩ := hC
        have p4 : presH s s4 (none : Option Nat) := by
          refine presH_comp p3 (ih _ day now _ _ _ hC).1 ?_
          intro t ht
          simp only [callTarget] at ht
          injection ht with ht
          exact Or.inl (by omega)
        rw [Option.bind_eq_some'] at h
        obtain ⟨⟨s5, b⟩, hD, h⟩ := h
        rw [asFlag_eq_some] at hD
        have p5 : presH s s5 (none : Option Nat) := by
          refine presH_comp p4 (ih _ day now _ _ _ hD).1 ?_
          intro t ht
          simp only [callTarget] at ht
          injection ht with ht
          exact Or.inl (by omega)
        simp only [Option.pure_def, Option.some.injEq, Prod.mk.injEq] at h
        obtain ⟨h1, h2⟩ := h
        subst h1
        exact ⟨presH_widen _ p5, fun r2 hr2 => by rw [← h2] at hr2; cases hr2⟩

/-- One-level unfolding of a successful `mkOpC` call: the result is the
fresh reference `s.nextRef`, and the heap at that reference holds the
constructed record — `newTrackedOperation` — whose fields the constructor's
own logging does not alter. -/
theorem mkOp_shape (fuel : Nat) (opId : Nat × String) (name : String)
    (parent : Option TrackedOperation) (isContainer : Bool)
    (iconStr : Option String) (avoidConsole : Bool) (info : List JsVal)
    (day now : Nat) (s s' : TrackerState) (res : EngineResult)
    (h : engine (fuel + 1)
      (Call.mkOpC opId name parent isContainer iconStr avoidConsole info)
      day now s = some (s', res)) :
    res = EngineResult.refRes s.nextRef ∧
    findOp s' s.nextRef =
      some (newTrackedOperation s opId name parent isContainer avoidConsole
        info now) ∧
    s.nextRef < s'.nextRef := by
  simp only [engine, Option.bind_eq_bind'] at h
  rw [Option.bind_eq_some'] at h
  obtain ⟨s3, hA, h⟩ := h
  rw [asState_eq_some] at hA
  obtain ⟨resA, hA⟩ := hA
  have epA := enginePreserves _ _ day now _ _ _ hA
  have hfind1 : findOp s3 s.nextRef =
      some (newTrackedOperation s opId name parent isContainer avoidConsole
        info now) := by
    rw [epA.1.2.1 s.nextRef (by exact Nat.lt_succ_self _) (by simp [callTarget])]
    exact findOp_cons_self s _ (s.nextRef + 1)
  have step : ∀ s4 : TrackerState, s.nextRef < s4.nextRef →
      findOp s4 s.nextRef =
        some (newTrackedOperation s opId name parent isContainer avoidConsole
          info now) →
      (match getErrors info with
       | some errs =>
         (asState (engine fuel (Call.logErrorsC (s.sessionId ++ "." ++ opId.2)
           avoidConsole errs) day now s4)).bind
           fun y => pure (addToActiveOpsStack y s.nextRef,
             EngineResult.refRes s.nextRef)
       | none =>
         (pure s4 : Option TrackerState).bind
           fun y => pure (addToActiveOpsStack y s.nextRef,
             EngineResult.refRes s.nextRef)) = some (s', res) →
      res = EngineResult.refRes s.nextRef ∧
      findOp s' s.nextRef =
        some (newTrackedOperation s opId name parent isContainer avoidConsole
          info now) ∧
      s.nextRef < s'.nextRef := by
    intro s4 hlt4 hf4 hm
    cases hge : getErrors info with
    | some errs =>
      rw [hge] at hm
      rw [Option.bind_eq_some'] at hm
      obtain ⟨s5, hC, hm⟩ := hm
      rw [asState_eq_some] at hC
      obtain ⟨resC, hC⟩ := hC
      have epC := enginePreserves _ _ day now _ _ _ hC
      simp only [Option.pure_def, Option.some.injEq, Prod.mk.injEq] at hm
      obtain ⟨hm1, hm2⟩ := hm
      subst hm1
      refine ⟨hm2.symm, ?_, ?_⟩
      · show findOp (addToActiveOpsStack s5 s.nextRef) s.nextRef = _
        have : findOp s5 s.nextRef =
            some (newTrackedOperation s opId name parent isContainer
              avoidConsole info now) := by
          rw [epC.1.2.1 s.nextRef hlt4 (by simp [callTarget])]
          exact hf4
        exact this
      · exact lt_of_lt_of_le hlt4 epC.1.1
    | none =>
      rw [hge] at hm
      simp only [Option.pure_def, Option.some_bind, Option.some.injEq,
        Prod.mk.injEq] at hm
      obtain ⟨hm1, hm2⟩ := hm
      subst hm1
      exact ⟨hm2.symm, hf4, hlt4⟩
  have hlt3 : s.nextRef < s3.nextRef := by
    have hstep : s.nextRef + 1 ≤ s3.nextRef := epA.1.1
    omega
  split at h
  · simp only [Option.pure_def, Option.some_bind] at h
    exact step s3 hlt3 hfind1 h
  · rw [Option.bind_eq_some'] at h
    obtain ⟨s4, hB, h⟩ := h
    rw [asState_eq_some] at hB
    obtain ⟨resB, hB⟩ := hB
    have epB := enginePreserves _ _ day now _ _ _ hB
    have hlt4 : s.nextRef < s4.nextRef := by
      have := epB.1.1
      omega
    refine step s4 hlt4 ?_ h
    rw [epB.1.2.1 s.nextRef hlt3 (by simp [callTarget])]
    exact hfind1

/-- Shape of a successful completion: calling the engine's `setCompletedC` on a
not-yet-completed operation returns `true` and replaces that operation by
`completedOp op isSuccess info now` in the heap. -/
theorem setCompleted_shape (fuel r : Nat) (isSuccess : Bool)
    (info : List JsVal) (day now : Nat) (s s' : TrackerState)
    (res : EngineResult) (op : TrackedOperation)
    (hf : findOp s r = some op) (hr : r < s.nextRef)
    (hc : op.isCompleted = false)
    (h : engine (fuel + 1) (Call.setCompletedC r isSuccess info) day now s
      = some (s', res)) :
    res = EngineResult.flagRes true ∧
    findOp s' r = some (completedOp op isSuccess info now) := by
  have hor : (completedOp op isSuccess info now).ref = r := by
    have h0 := findOp_ref hf
    simp only [completedOp]
    split <;> split <;> exact h0
  have hf1 : findOp (updateOp s r (completedOp op isSuccess info now)) r =
      some (completedOp op isSuccess info now) :=
    findOp_updateOp_self s r _ op hf hor
  have hr1 : r < (updateOp s r (completedOp op isSuccess info now)).nextRef := by
    rw [nextRef_updateOp]
    exact hr
  simp only [engine, Option.bind_eq_bind'] at h
  rw [hf] at h
  simp only [Option.some_bind] at h
  rw [if_neg (by simp [hc])] at h
  cases hge : getErrors info with
  | some errs =>
    rw [hge] at h
    rw [Option.bind_eq_some'] at h
    obtain ⟨s2, hE, h⟩ := h
    rw [asState_eq_some] at hE
    obtain ⟨resE, hE⟩ := hE
    have epE := enginePreserves _ _ day now _ _ _ hE
    have hlt2 : r < s2.nextRef := lt_of_lt_of_le hr1 epE.1.1
    have hf2 : findOp s2 r = some (completedOp op isSuccess info now) := by
      rw [epE.1.2.1 r hr1 (by simp [callTarget])]
      exact hf1
    rw [Option.bind_eq_some'] at h
    obtain ⟨s3, hL, h⟩ := h
    rw [asState_eq_some] at hL
    obtain ⟨resL, hL⟩ := hL
    have epL := enginePreserves _ _ day now _ _ _ hL
    have hf3 : findOp s3 r = some (completedOp op isSuccess info now) := by
      rw [epL.1.2.1 r hlt2 (by simp [callTarget])]
      exact hf2
    simp only [Option.pure_def, Option.some.injEq, Prod.mk.injEq] at h
    obtain ⟨hm1, hm2⟩ := h
    subst hm1
    refine ⟨hm2.symm, ?_⟩
    split
    · rw [findOp_removeFromActiveOpsStack]
      exact hf3
    · exact hf3
  | none =>
    rw [hge] at h
    simp only [Option.pure_def, Option.some_bind] at h
    rw [Option.bind_eq_some'] at h
    obtain ⟨s3, hL, h⟩ := h
    rw [asState_eq_some] at hL
    obtain ⟨resL, hL⟩ := hL
    have epL := enginePreserves _ _ day now _ _ _ hL
    have hf3 : findOp s3 r = some (completedOp op isSuccess info now) := by
      rw [epL.1.2.1 r hr1 (by simp [callTarget])]
      exact hf1
    simp only [Option.pure_def, Option.some.injEq, Prod.mk.injEq] at h
    obtain ⟨hm1, hm2⟩ := h
    subst hm1
    refine ⟨hm2.symm, ?_⟩
    split
    · rw [findOp_removeFromActiveOpsStack]
      exact hf3
    · exact hf3

/-! ## Field lemmas for `completedOp` -/

theorem completedOp_parentRef (op : TrackedOperation) (b : Bool)
    (i : List JsVal) (n : Nat) :
    (completedOp op b i n).parentRef = op.parentRef := by
  simp only [completedOp]
  split <;> split <;> rfl

theorem completedOp_nestDepth (op : TrackedOperation) (b : Bool)
    (i : List JsVal) (n : Nat) :
    (completedOp op b i n).nestDepth = op.nestDepth := by
  simp only [completedOp]
  split <;> split <;> rfl

theorem completedOp_endTime (op : TrackedOperation) (b : Bool)
    (i : List JsVal) (n : Nat) :
    (completedOp op b i n).endTime = some n := by
  simp only [completedOp]
  split <;> split <;> rfl

theorem completedOp_isCompleted (op : TrackedOperation) (b : Bool)
    (i : List JsVal) (n : Nat) :
    (completedOp op b i n).isCompleted = true := by
  cases b <;> simp [completedOp, TrackedOperation.isCompleted]

theorem completedOp_isSucceeded (op : TrackedOperation) (i : List JsVal)
    (n : Nat) : (completedOp op true i n).isSucceeded = true := by
  simp [completedOp]

/-! ## Shape of `addInfo` -/

/-- Shape of an `addInfoC` call: the payload array is appended to the target
operation's `#info`; the logging the call performs does not alter the
operation. -/
theorem addInfo_shape (fuel r : Nat) (data : List JsVal) (day now : Nat)
    (s s' : TrackerState) (res : EngineResult) (op : TrackedOperation)
    (hf : findOp s r = some op) (hr : r < s.nextRef)
    (h : engine (fuel + 1) (Call.addInfoC r data) day now s
      = some (s', res)) :
    res = EngineResult.unitRes ∧
    findOp s' r = some { op with info := op.info ++ [data] } := by
  have hor : ({ op with info := op.info ++ [data] } :
      TrackedOperation).ref = r := by
    have h0 := findOp_ref hf
    exact h0
  have hf1 : findOp (updateOp s r { op with info := op.info ++ [data] }) r =
      some { op with info := op.info ++ [data] } :=
    findOp_updateOp_self s r _ op hf hor
  have hr1 : r <
      (updateOp s r { op with info := op.info ++ [data] }).nextRef := by
    rw [nextRef_updateOp]
    exact hr
  simp only [engine, Option.bind_eq_bind'] at h
  rw [hf] at h
  simp only [Option.some_bind] at h
  rw [Option.bind_eq_some'] at h
  obtain ⟨s2, hL, h⟩ := h
  rw [asState_eq_some] at hL
  obtain ⟨resL, hL⟩ := hL
  have epL := enginePreserves _ _ day now _ _ _ hL
  have hlt2 : r < s2.nextRef := lt_of_lt_of_le hr1 epL.1.1
  have hf2 : findOp s2 r = some { op with info := op.info ++ [data] } := by
    rw [epL.1.2.1 r hr1 (by simp [callTarget])]
    exact hf1
  cases hge : getErrors data with
  | some errs =>
    rw [hge] at h
    rw [Option.bind_eq_some'] at h
    obtain ⟨s3, hE, h⟩ := h
    rw [asState_eq_some] at hE
    obtain ⟨resE, hE⟩ := hE
    have epE := enginePreserves _ _ day now _ _ _ hE
    have hf3 : findOp s3 r = some { op with info := op.info ++ [data] } := by
      rw [epE.1.2.1 r hlt2 (by simp [callTarget])]
      exact hf2
    simp only [Option.pure_def, Option.some.injEq, Prod.mk.injEq] at h
    obtain ⟨hm1, hm2⟩ := h
    subst hm1
    exact ⟨hm2.symm, hf3⟩
  | none =>
    rw [hge] at h
    simp only [Option.pure_def, Option.some_bind, Option.some.injEq,
      Prod.mk.injEq] at h
    obtain ⟨hm1, hm2⟩ := h
    subst hm1
    exact ⟨hm2.symm, hf2⟩

/-! ## Shapes of `startOperation` and `observeEvent` -/

/-- Shape of `startOperation`: the new operation's parent link and nesting
depth are those of the current top container at call time (`+1` under a
parent, `0` at the root). -/
theorem startOperation_shape (fuel : Nat) (name : String) (info : List JsVal)
    (day now : Nat) (s s' : TrackerState) (r : Nat)
    (h : startOperation (fuel + 2) name info day now s = some (s', r)) :
    (findOp s' r).map (fun o => (o.parentRef, o.nestDepth)) =
      some ((getCurrentTopContainer s).map (fun p => p.ref),
        match getCurrentTopContainer s with
        | some p => p.nestDepth + 1
        | none => 0) := by
  unfold startOperation at h
  rw [asRef_eq_some] at h
  replace h : engine (fuel + 1 + 1) (Call.startOperationC name info) day now s
      = some (s', EngineResult.refRes r) := h
  generalize hfg : fuel + 1 = g at h
  simp only [engine, Option.bind_eq_bind'] at h
  rw [Option.bind_eq_some'] at h
  obtain ⟨⟨opId, gen⟩, hg, h⟩ := h
  subst hfg
  have hmk := mkOp_shape fuel opId name (getCurrentTopContainer s) true
    none false info day now _ _ _ h
  have hr1 := hmk.1
  injection hr1 with hr0
  rw [hr0, hmk.2.1]
  cases hg2 : getCurrentTopContainer s <;> simp [hg2, newTrackedOperation]

/-- Shape of a successful `observeEvent`: the returned handle wraps a fresh
operation — completed with success by the call itself — whose parent link and
nesting depth come from the current top container, and the handle's delay is
a freshly created and started (not yet fired) `DelayPromise`. -/
theorem observeEvent_shape (fuel : Nat) (kind : EventLevelKind)
    (name : String) (eventInfo : Option (Sum (List JsVal) JsVal))
    (moreInfo : List JsVal) (day now : Nat) (s s' : TrackerState)
    (hndl : EventDisplayHandle)
    (h : observeEvent (fuel + 2) kind name eventInfo moreInfo day now s
      = some (s', hndl)) :
    ∃ opX : TrackedOperation,
      findOp s' hndl.opRef = some (completedOp opX true [] now) ∧
      opX.parentRef = (getCurrentTopContainer s).map (fun p => p.ref) ∧
      opX.nestDepth = (match getCurrentTopContainer s with
        | some p => p.nestDepth + 1
        | none => 0) ∧
      hndl.delay =
        (DelayPromise.create s'.config.eventDisplayDurationMSec).start := by
  unfold observeEvent at h
  rw [asHandle_eq_some] at h
  replace h : engine (fuel + 1 + 1)
      (Call.observeEventC kind name eventInfo moreInfo) day now s
      = some (s', EngineResult.handleRes hndl) := h
  generalize hfg : fuel + 1 = g at h
  simp only [engine, Option.bind_eq_bind'] at h
  rw [Option.bind_eq_some'] at h
  obtain ⟨⟨opId, gen⟩, hg, h⟩ := h
  rw [Option.bind_eq_some'] at h
  obtain ⟨⟨s1, r⟩, hmkA, h⟩ := h
  rw [asRef_eq_some] at hmkA
  subst hfg
  have hmk := mkOp_shape fuel _ _ _ _ _ _ _ day now _ _ _ hmkA
  have hr1 := hmk.1
  injection hr1 with hr0
  have hr0' : r = ({ s with idGen := gen } : TrackerState).nextRef := hr0
  have hfN' : findOp s1 r = some (newTrackedOperation { s with idGen := gen }
      opId name (getCurrentTopContainer s) false
      (EventLevelKind.isKind kind EventLevelKind.ConsoleCapture)
      (eventInfoArr eventInfo) now) := by
    rw [hr0']
    exact hmk.2.1
  obtain ⟨opN, hfN, hpN, hdN, hcN⟩ : ∃ opN : TrackedOperation,
      findOp s1 r = some opN ∧
      opN.parentRef = (getCurrentTopContainer s).map (fun p => p.ref) ∧
      opN.nestDepth = (match getCurrentTopContainer s with
        | some p => p.nestDepth + 1
        | none => 0) ∧
      opN.isCompleted = false :=
    ⟨_, hfN', rfl, rfl, rfl⟩
  have hrlt1 : r < s1.nextRef := by
    rw [hr0']
    exact hmk.2.2
  split at h
  · rw [Option.bind_eq_some'] at h
    obtain ⟨s2, hAI, h⟩ := h
    rw [asState_eq_some] at hAI
    obtain ⟨resAI, hAI⟩ := hAI
    have hai := addInfo_shape fuel r [JsVal.objVal "moreInfo"] day now s1 s2
      resAI opN hfN hrlt1 hAI
    have epAI := enginePreserves _ _ day now _ _ _ hAI
    have hrlt2 : r < s2.nextRef := lt_of_lt_of_le hrlt1 epAI.1.1
    rw [Option.bind_eq_some'] at h
    obtain ⟨⟨s3, flag⟩, hSC, h⟩ := h
    rw [asFlag_eq_some] at hSC
    have hsc := setCompleted_shape fuel r true [] day now s2 _ _
      { opN with info := opN.info ++ [[JsVal.objVal "moreInfo"]] }
      hai.2 hrlt2 hcN hSC
    simp only [Option.pure_def, Option.some.injEq, Prod.mk.injEq] at h
    obtain ⟨h1, h2⟩ := h
    subst h1
    injection h2 with h3
    refine ⟨{ opN with info := opN.info ++ [[JsVal.objVal "moreInfo"]] },
      ?_, hpN, hdN, ?_⟩
    · rw [← h3]
      exact hsc.2
    · rw [← h3]
  · simp only [Option.pure_def, Option.some_bind] at h
    rw [Option.bind_eq_some'] at h
    obtain ⟨⟨s3, flag⟩, hSC, h⟩ := h
    rw [asFlag_eq_some] at hSC
    have hsc := setCompleted_shape fuel r true [] day now s1 _ _ opN
      hfN hrlt1 hcN hSC
    simp only [Option.pure_def, Option.some.injEq, Prod.mk.injEq] at h
    obtain ⟨h1, h2⟩ := h
    subst h1
    injection h2 with h3
    refine ⟨opN, ?_, hpN, hdN, ?_⟩
    · rw [← h3]
      exact hsc.2
    · rw [← h3]

/-! ## Behaviour under an in-progress trim -/

theorem trimming_logDateIfChanged (day : Nat) (s : TrackerState) :
    (logDateIfChanged day s).trimmingLogBufferInProgress =
      s.trimmingLogBufferInProgress := by
  unfold logDateIfChanged
  split <;> rfl

theorem config_logDateIfChanged (day : Nat) (s : TrackerState) :
    (logDateIfChanged day s).config = s.config := by
  unfold logDateIfChanged
  split <;> rfl

theorem len_logDateIfChanged (day : Nat) (s : TrackerState) :
    s.loggedOps.length ≤ (logDateIfChanged day s).loggedOps.length := by
  unfold logDateIfChanged
  split
  · exact le_refl _
  · simp

theorem logDateIfChanged_sameday {day : Nat} {s : TrackerState}
    (h : s.lastLoggedDay = day) : logDateIfChanged day s = s := by
  unfold logDateIfChanged
  rw [if_pos h]

theorem trimming_removeFromActiveOpsStack (s : TrackerState) (r : Nat) :
    (removeFromActiveOpsStack s r).trimmingLogBufferInProgress =
      s.trimmingLogBufferInProgress := by
  unfold removeFromActiveOpsStack
  split
  · rfl
  · split <;> rfl

theorem config_removeFromActiveOpsStack (s : TrackerState) (r : Nat) :
    (removeFromActiveOpsStack s r).config = s.config := by
  unfold removeFromActiveOpsStack
  split
  · rfl
  · split <;> rfl

theorem loggedOps_removeFromActiveOpsStack (s : TrackerState) (r : Nat) :
    (removeFromActiveOpsStack s r).loggedOps = s.loggedOps := by
  unfold removeFromActiveOpsStack
  split
  · rfl
  · split <;> rfl

/-- While a trim is in progress, every engine call keeps the
reentrancy guard set, keeps the configuration, and — except for the
buffer-splicing `drop` calls — can only grow the log buffer, by at least
`minAppend` entries (one per emitted line; two for a container
construction, whose parent-info line is never lifted). -/
theorem guardMono : ∀ (fuel : Nat) (call : Call) (day now : Nat)
    (s s' : TrackerState) (res : EngineResult),
    engine fuel call day now s = some (s', res) →
    s.trimmingLogBufferInProgress = true →
    s'.trimmingLogBufferInProgress = true ∧ s'.config = s.config ∧
    (callDrops call = false →
      s.loggedOps.length + minAppend call ≤ s'.loggedOps.length) := by
  intro fuel
  induction fuel with
  | zero =>
    intro call day now s s' res h hg
    simp [engine] at h
  | succ n ih =>
    intro call day now s s' res h hg
    cases call with
    | logLineC moniker duration opIdStr entryType =>
      simp only [engine, Option.bind_eq_bind'] at h
      split at h
      · have hm := ih Call.trimC day now _ s' res h (by
          show (logDateIfChanged day s).trimmingLogBufferInProgress = true
          rw [trimming_logDateIfChanged]
          exact hg)
        have hc2 : s'.config = (logDateIfChanged day s).config := hm.2.1
        rw [config_logDateIfChanged] at hc2
        have hl2 : ((logDateIfChanged day s).loggedOps ++
            [({ type := entryType, opId := some opIdStr,
                moniker := some moniker, duration := duration } :
              LogEntry)]).length + 0 ≤ s'.loggedOps.length := hm.2.2 rfl
        have hl3 := len_logDateIfChanged day s
        simp only [List.length_append, List.length_cons, List.length_nil] at hl2
        exact ⟨hm.1, hc2, fun _ => by
          show s.loggedOps.length + 1 ≤ s'.loggedOps.length
          omega⟩
      · injection h with h1
        injection h1 with h1 h2
        subst h1
        refine ⟨?_, ?_, fun _ => ?_⟩
        · show (logDateIfChanged day s).trimmingLogBufferInProgress = true
          rw [trimming_logDateIfChanged]
          exact hg
        · show (logDateIfChanged day s).config = s.config
          rw [config_logDateIfChanged]
        · show s.loggedOps.length + 1 ≤
            ((logDateIfChanged day s).loggedOps ++
              [({ type := entryType, opId := some opIdStr,
                  moniker := some moniker, duration := duration } :
                LogEntry)]).length
          have hl3 := len_logDateIfChanged day s
          simp only [List.length_append, List.length_cons, List.length_nil]
          omega
    | trimC =>
      simp only [engine, Option.bind_eq_bind'] at h
      rw [if_pos hg] at h
      injection h with h1
      injection h1 with h1 h2
      subst h1
      exact ⟨hg, rfl, fun _ => by show s.loggedOps.length + 0 ≤ _; omega⟩
    | logErrorsC opIdStr avoidConsole errors =>
      simp only [engine] at h
      split at h
      · injection h with h1
        injection h1 with h1 h2
        subst h1
        exact ⟨hg, rfl, fun _ => by show s.loggedOps.length + 0 ≤ _; omega⟩
      · have hm := ih _ day now _ s' res h hg
        refine ⟨hm.1, hm.2.1, fun _ => ?_⟩
        have := hm.2.2 rfl
        show s.loggedOps.length + 0 ≤ s'.loggedOps.length
        have h1 : s.loggedOps.length + minAppend
            (Call.logLineC Moniker.ERRS none opIdStr LogEntryType.OpErrNote) ≤
            s'.loggedOps.length := this
        simp only [minAppend] at h1
        omega
    | mkOpC opId name parent isContainer iconStr avoidConsole info =>
      simp only [engine, Option.bind_eq_bind'] at h
      rw [Option.bind_eq_some'] at h
      obtain ⟨s3, hA, h⟩ := h
      rw [asState_eq_some] at hA
      obtain ⟨resA, hA⟩ := hA
      have hmA := ih _ day now _ _ _ hA hg
      have hcA : s3.config = s.config := hmA.2.1
      have hlA : s.loggedOps.length + 1 ≤ s3.loggedOps.length := by
        have := hmA.2.2 rfl
        simp only [minAppend] at this
        exact this
      have finish : ∀ s5 : TrackerState, s5.trimmingLogBufferInProgress = true →
          s5.config = s.config →
          s.loggedOps.length + minAppend (Call.mkOpC opId name parent
            isContainer iconStr avoidConsole info) ≤ s5.loggedOps.length →
          (pure (addToActiveOpsStack s5 s.nextRef,
              EngineResult.refRes s.nextRef) :
            Option (TrackerState × EngineResult)) = some (s', res) →
          s'.trimmingLogBufferInProgress = true ∧ s'.config = s.config ∧
          (callDrops (Call.mkOpC opId name parent isContainer iconStr
            avoidConsole info) = false →
            s.loggedOps.length + minAppend (Call.mkOpC opId name parent
              isContainer iconStr avoidConsole info) ≤
              s'.loggedOps.length) := by
        intro s5 ht hc hl hfin
        simp only [Option.pure_def, Option.some.injEq, Prod.mk.injEq] at hfin
        obtain ⟨hf1, hf2⟩ := hfin
        subst hf1
        exact ⟨ht, hc, fun _ => hl⟩
      have step : ∀ s4 : TrackerState, s4.trimmingLogBufferInProgress = true →
          s4.config = s.config →
          s.loggedOps.length + minAppend (Call.mkOpC opId name parent
            isContainer iconStr avoidConsole info) ≤ s4.loggedOps.length →
          (match getErrors info with
           | some errs =>
             (asState (engine n (Call.logErrorsC (s.sessionId ++ "." ++ opId.2)
               avoidConsole errs) day now s4)).bind
               fun y => pure (addToActiveOpsStack y s.nextRef,
                 EngineResult.refRes s.nextRef)
           | none =>
             (pure s4 : Option TrackerState).bind
               fun y => pure (addToActiveOpsStack y s.nextRef,
                 EngineResult.refRes s.nextRef)) = some (s', res) →
          s'.trimmingLogBufferInProgress = true ∧ s'.config = s.config ∧
          (callDrops (Call.mkOpC opId name parent isContainer iconStr
            avoidConsole info) = false →
            s.loggedOps.length + minAppend (Call.mkOpC opId name parent
              isContainer iconStr avoidConsole info) ≤
              s'.loggedOps.length) := by
        intro s4 ht hc hl hm
        cases hge : getErrors info with
        | some errs =>
          rw [hge] at hm
          rw [Option.bind_eq_some'] at hm
          obtain ⟨s5, hC, hm⟩ := hm
          rw [asState_eq_some] at hC
          obtain ⟨resC, hC⟩ := hC
          have hmC := ih _ day now _ _ _ hC ht
          refine finish s5 hmC.1 (by rw [hmC.2.1]; exact hc) ?_ hm
          have := hmC.2.2 rfl
          simp only [minAppend] at this
          omega
        | none =>
          rw [hge] at hm
          simp only [Option.pure_def, Option.some_bind] at hm
          exact finish s4 ht hc hl hm
      split at h
      · rename_i hlift
        simp only [Option.pure_def, Option.some_bind] at h
        refine step s3 hmA.1 hcA ?_ h
        have hic : isContainer = false := by
          cases isContainer
          · rfl
          · exact absurd rfl hlift.1
        rw [hic]
        simp only [minAppend, if_neg (by simp : ¬ (false = true))]
        omega
      · rw [Option.bind_eq_some'] at h
        obtain ⟨s4, hB, h⟩ := h
        rw [asState_eq_some] at hB
        obtain ⟨resB, hB⟩ := hB
        have hmB := ih _ day now _ _ _ hB hmA.1
        refine step s4 hmB.1 (by rw [hmB.2.1]; exact hcA) ?_ h
        have hlB : s3.loggedOps.length + 1 ≤ s4.loggedOps.length := by
          have := hmB.2.2 rfl
          simp only [minAppend] at this
          exact this
        have hbound : minAppend (Call.mkOpC opId name parent isContainer
            iconStr avoidConsole info) ≤ 2 := by
          cases isContainer <;> simp [minAppend]
        omega
    | startOperationC name info =>
      simp only [engine, Option.bind_eq_bind'] at h
      rw [Option.bind_eq_some'] at h
      obtain ⟨⟨opId, gen⟩, hgen, h⟩ := h
      have hm := ih _ day now _ s' res h hg
      refine ⟨hm.1, hm.2.1, fun _ => ?_⟩
      have h1 : s.loggedOps.length + minAppend (Call.mkOpC opId name
          (getCurrentTopContainer s) true none false info) ≤
          s'.loggedOps.length := hm.2.2 rfl
      simp only [minAppend, if_pos rfl] at h1
      show s.loggedOps.length + 2 ≤ s'.loggedOps.length
      exact h1
    | setCompletedC r0 isSuccess info =>
      simp only [engine, Option.bind_eq_bind'] at h
      rw [Option.bind_eq_some'] at h
      obtain ⟨op, hf, h⟩ := h
      split at h
      · simp only [Option.pure_def, Option.some.injEq, Prod.mk.injEq] at h
        obtain ⟨h1, h2⟩ := h
        subst h1
        exact ⟨hg, rfl, fun _ => by show s.loggedOps.length + 0 ≤ _; omega⟩
      · have finish : ∀ (c : Bool) (s6 : TrackerState),
            s6.trimmingLogBufferInProgress = true → s6.config = s.config →
            s.loggedOps.length ≤ s6.loggedOps.length →
            (pure ((if c then removeFromActiveOpsStack s6 r0
                else s6), EngineResult.flagRes true) :
              Option (TrackerState × EngineResult)) = some (s', res) →
            s'.trimmingLogBufferInProgress = true ∧ s'.config = s.config ∧
            (callDrops (Call.setCompletedC r0 isSuccess info) = false →
              s.loggedOps.length + minAppend (Call.setCompletedC r0 isSuccess
                info) ≤ s'.loggedOps.length) := by
          intro c s6 ht hc hl hfin
          simp only [Option.pure_def, Option.some.injEq, Prod.mk.injEq] at hfin
          obtain ⟨hf1, hf2⟩ := hfin
          subst hf1
          refine ⟨?_, ?_, fun _ => ?_⟩
          · split
            · rw [trimming_removeFromActiveOpsStack]
              exact ht
            · exact ht
          · split
            · rw [config_removeFromActiveOpsStack]
              exact hc
            · exact hc
          · show s.loggedOps.length + 0 ≤ _
            split
            · rw [loggedOps_removeFromActiveOpsStack]
              omega
            · omega
        cases hge : getErrors info with
        | some errs =>
          rw [hge] at h
          rw [Option.bind_eq_some'] at h
          obtain ⟨s5, hC, h⟩ := h
          rw [asState_eq_some] at hC
          obtain ⟨resC, hC⟩ := hC
          rw [Option.bind_eq_some'] at h
          obtain ⟨s6, hD, h⟩ := h
          rw [asState_eq_some] at hD
          obtain ⟨resD, hD⟩ := hD
          have hmC := ih _ day now _ _ _ hC hg
          have hmD := ih _ day now _ _ _ hD hmC.1
          refine finish _ s6 hmD.1 (by rw [hmD.2.1, hmC.2.1]; rfl) ?_ h
          have h1 := hmC.2.2 rfl
          have h2 := hmD.2.2 rfl
          simp only [minAppend] at h1 h2
          have hup : (updateOp s r0 (completedOp op isSuccess info
              now)).loggedOps.length = s.loggedOps.length := rfl
          omega
        | none =>
          rw [hge] at h
          simp only [Option.pure_def, Option.some_bind] at h
          rw [Option.bind_eq_some'] at h
          obtain ⟨s6, hD, h⟩ := h
          rw [asState_eq_some] at hD
          obtain ⟨resD, hD⟩ := hD
          have hmD := ih _ day now _ _ _ hD hg
          refine finish _ s6 hmD.1 hmD.2.1 ?_ h
          have h2 := hmD.2.2 rfl
          simp only [minAppend] at h2
          have hup : (updateOp s r0 (completedOp op isSuccess info
              now)).loggedOps.length = s.loggedOps.length := rfl
          omega
    | addInfoC r0 data =>
      simp only [engine, Option.bind_eq_bind'] at h
      rw [Option.bind_eq_some'] at h
      obtain ⟨op, hf, h⟩ := h
      rw [Option.bind_eq_some'] at h
      obtain ⟨s4, hB, h⟩ := h
      rw [asState_eq_some] at hB
      obtain ⟨resB, hB⟩ := hB
      have hmB := ih _ day now _ _ _ hB hg
      have hlB : s.loggedOps.length + 1 ≤ s4.loggedOps.length := by
        have := hmB.2.2 rfl
        simp only [minAppend] at this
        exact this
      have finish : ∀ s6 : TrackerState,
          s6.trimmingLogBufferInProgress = true → s6.config = s.config →
          s.loggedOps.length + 1 ≤ s6.loggedOps.length →
          (pure (s6, EngineResult.unitRes) :
            Option (TrackerState × EngineResult)) = some (s', res) →
          s'.trimmingLogBufferInProgress = true ∧ s'.config = s.config ∧
          (callDrops (Call.addInfoC r0 data) = false →
            s.loggedOps.length + minAppend (Call.addInfoC r0 data) ≤
              s'.loggedOps.length) := by
        intro s6 ht hc hl hfin
        simp only [Option.pure_def, Option.some.injEq, Prod.mk.injEq] at hfin
        obtain ⟨hf1, hf2⟩ := hfin
        subst hf1
        exact ⟨ht, hc, fun _ => hl⟩
      cases hge : getErrors data with
      | some errs =>
        rw [hge] at h
        rw [Option.bind_eq_some'] at h
        obtain ⟨s6, hD, h⟩ := h
        rw [asState_eq_some] at hD
        obtain ⟨resD, hD⟩ := hD
        have hmD := ih _ day now _ _ _ hD hmB.1
        refine finish s6 hmD.1 (by rw [hmD.2.1, hmB.2.1]; rfl) ?_ h
        have h2 := hmD.2.2 rfl
        simp only [minAppend] at h2
        omega
      | none =>
        rw [hge] at h
        simp only [Option.pure_def, Option.some_bind] at h
        exact finish s4 hmB.1 hmB.2.1 hlB h
    | observeEventC kind name eventInfo moreInfo =>
      simp only [engine, Option.bind_eq_bind'] at h
      rw [Option.bind_eq_some'] at h
      obtain ⟨⟨opId, gen⟩, hgen, h⟩ := h
      rw [Option.bind_eq_some'] at h
      obtain ⟨⟨s2, r⟩, hA, h⟩ := h
      rw [asRef_eq_some] at hA
      have hmA := ih _ day now _ _ _ hA hg
      have hlA : s.loggedOps.length ≤ ((s2, r).1 :
          TrackerState).loggedOps.length := by
        have h1 := hmA.2.2 rfl
        have hb : ({ s with idGen := (opId, gen).2 } :
            TrackerState).loggedOps.length = s.loggedOps.length := rfl
        omega
      have finish : ∀ (s4 : TrackerState) (hndl : EventDisplayHandle),
          s4.trimmingLogBufferInProgress = true → s4.config = s.config →
          s.loggedOps.length ≤ s4.loggedOps.length →
          (pure (s4, EngineResult.handleRes hndl) :
            Option (TrackerState × EngineResult)) = some (s', res) →
          s'.trimmingLogBufferInProgress = true ∧ s'.config = s.config ∧
          (callDrops (Call.observeEventC kind name eventInfo moreInfo)
              = false →
            s.loggedOps.length + minAppend (Call.observeEventC kind name
              eventInfo moreInfo) ≤ s'.loggedOps.length) := by
        intro s4 hndl ht hc hl hfin
        simp only [Option.pure_def, Option.some.injEq, Prod.mk.injEq] at hfin
        obtain ⟨hf1, hf2⟩ := hfin
        subst hf1
        exact ⟨ht, hc, fun _ => by show s.loggedOps.length + 0 ≤ _; omega⟩
      split at h <;>
      · rw [Option.bind_eq_some'] at h
        obtain ⟨s3, hB, h⟩ := h
        rw [Option.bind_eq_some'] at h
        obtain ⟨⟨s4, b⟩, hC, h⟩ := h
        rw [asFlag_eq_some] at hC
        have p3 : s3.trimmingLogBufferInProgress = true ∧
            s3.config = s.config ∧
            s.loggedOps.length ≤ s3.loggedOps.length := by
          first
          | (rw [asState_eq_some] at hB
             obtain ⟨resB, hB⟩ := hB
             have hmB := ih _ day now _ _ _ hB hmA.1
             refine ⟨hmB.1, by rw [hmB.2.1]; exact hmA.2.1, ?_⟩
             have h2 := hmB.2.2 rfl
             simp only [minAppend] at h2
             have hb2 : ((s2, r).1 : TrackerState).loggedOps.length
                 = s2.loggedOps.length := rfl
             omega)
          | (simp only [Option.pure_def, Option.some.injEq] at hB
             rw [← hB]
             exact ⟨hmA.1, hmA.2.1, hlA⟩)
        have hmC := ih _ day now _ _ _ hC p3.1
        have p4 : s4.trimmingLogBufferInProgress = true ∧
            s4.config = s.config ∧
            s.loggedOps.length ≤ s4.loggedOps.length := by
          refine ⟨hmC.1, ?_, ?_⟩
          · rw [← p3.2.1]
            exact hmC.2.1
          · have h2 := hmC.2.2 rfl
            simp only [minAppend] at h2
            have h3 := p3.2.2
            have hb3 : ((s4, b).1 : TrackerState).loggedOps.length
                = s4.loggedOps.length := rfl
            omega
        exact finish s4 _ p4.1 p4.2.1 p4.2.2 h
    | dropLoopC dropRef dropFrom totalDropCount droppedAcc =>
      simp only [engine, Option.bind_eq_bind'] at h
      split at h
      · injection h with h1
        injection h1 with h1 h2
        subst h1
        exact ⟨hg, rfl, fun hc => by simp [callDrops] at hc⟩
      · split at h
        · injection h with h1
          injection h1 with h1 h2
          subst h1
          exact ⟨hg, rfl, fun hc => by simp [callDrops] at hc⟩
        · rw [Option.bind_eq_some'] at h
          obtain ⟨s2, hB, h⟩ := h
          rw [asState_eq_some] at hB
          obtain ⟨resB, hB⟩ := hB
          have hmB := ih _ day now _ _ _ hB hg
          have hmC := ih _ day now _ _ _ h (by
            split
            · split <;> exact hmB.1
            · exact hmB.1)
          refine ⟨hmC.1, ?_, fun hc => by simp [callDrops] at hc⟩
          rw [hmC.2.1]
          split
          · split
            · exact hmB.2.1
            · exact hmB.2.1
          · exact hmB.2.1
    | dropC =>
      simp only [engine, Option.bind_eq_bind'] at h
      rw [Option.bind_eq_some'] at h
      obtain ⟨⟨s2, dropRef⟩, hA, h⟩ := h
      rw [asRef_eq_some] at hA
      have hmA := ih _ day now _ _ _ hA hg
      split at h
      · rw [Option.bind_eq_some'] at h
        obtain ⟨⟨s3, b⟩, hB, h⟩ := h
        rw [asFlag_eq_some] at hB
        have hmB := ih _ day now _ _ _ hB hmA.1
        simp only [Option.pure_def, Option.some.injEq, Prod.mk.injEq] at h
        obtain ⟨h1, h2⟩ := h
        subst h1
        exact ⟨hmB.1, by rw [hmB.2.1, hmA.2.1],
          fun hc => by simp [callDrops] at hc⟩
      · rw [Option.bind_eq_some'] at h
        obtain ⟨⟨s3, tot, acc⟩, hB, h⟩ := h
        rw [asDropped_eq_some] at hB
        have hmB := ih _ day now _ _ _ hB hmA.1
        rw [Option.bind_eq_some'] at h
        obtain ⟨s4, hC, h⟩ := h
        rw [asState_eq_some] at hC
        obtain ⟨resC, hC⟩ := hC
        have hmC := ih _ day now _ _ _ hC hmB.1
        rw [Option.bind_eq_some'] at h
        obtain ⟨⟨s5, b⟩, hD, h⟩ := h
        rw [asFlag_eq_some] at hD
        have hmD := ih _ day now _ _ _ hD hmC.1
        simp only [Option.pure_def, Option.some.injEq, Prod.mk.injEq] at h
        obtain ⟨h1, h2⟩ := h
        subst h1
        exact ⟨hmD.1, by rw [hmD.2.1, hmC.2.1, hmB.2.1, hmA.2.1],
          fun hc => by simp [callDrops] at hc⟩

theorem asState_bind_none {x : Option (TrackerState × EngineResult)}
    {k : TrackerState → Option (TrackerState × EngineResult)} (h : x = none) :
    (asState x).bind k = none := by
  rw [h]
  rfl

theorem asFlag_bind_none {x : Option (TrackerState × EngineResult)}
    {k : TrackerState × Bool → Option (TrackerState × EngineResult)}
    (h : x = none) : (asFlag x).bind k = none := by
  rw [h]
  rfl

/-- A successful `startOperationC` returns a fresh reference holding a
not-yet-completed operation. -/
theorem startOperationC_fresh (f : Nat) (name : String) (info : List JsVal)
    (day now : Nat) (s s1 : TrackerState) (r : Nat)
    (h : engine f (Call.startOperationC name info) day now s
      = some (s1, EngineResult.refRes r)) :
    ∃ opT : TrackedOperation, findOp s1 r = some opT ∧
      opT.isCompleted = false ∧ r < s1.nextRef := by
  cases f with
  | zero => simp [engine] at h
  | succ f1 =>
    simp only [engine, Option.bind_eq_bind'] at h
    rw [Option.bind_eq_some'] at h
    obtain ⟨⟨opId, gen⟩, hgen, h⟩ := h
    cases f1 with
    | zero => simp [engine] at h
    | succ f2 =>
      have hmk := mkOp_shape f2 _ _ _ _ _ _ _ day now _ _ _ h
      have hr1 := hmk.1
      injection hr1 with hr0
      have hr0' : r = ({ s with idGen := gen } : TrackerState).nextRef := hr0
      have hfN' : findOp s1 r = some (newTrackedOperation
          { s with idGen := gen } opId name (getCurrentTopContainer s) true
          false info now) := by
        rw [hr0']
        exact hmk.2.1
      have hlt : r < s1.nextRef := by
        rw [hr0']
        exact hmk.2.2
      exact ⟨_, hfN', rfl, hlt⟩

/-- With a clean step of at most 4 and the guard down, a `logLine` whose
buffer is already full diverges: the appended entry crosses the threshold
and the triggered trim never terminates (`ihT` is the induction hypothesis
of `trimC_diverges`). -/
theorem logLineC_overflow_none (fuel : Nat) (m : Moniker) (d : Option String)
    (o : String) (t : LogEntryType) (day now : Nat) (s : TrackerState)
    (ihT : ∀ m2, m2 < fuel → ∀ (day now : Nat) (s2 : TrackerState),
      s2.config.logBufferCleanStep ≤ 4 →
      s2.trimmingLogBufferInProgress = false →
      s2.config.logBufferSize + 1 ≤ s2.loggedOps.length →
      engine m2 Call.trimC day now s2 = none)
    (hguard : s.trimmingLogBufferInProgress = false)
    (hstep : s.config.logBufferCleanStep ≤ 4)
    (hlen : s.config.logBufferSize ≤ s.loggedOps.length) :
    engine fuel (Call.logLineC m d o t) day now s = none := by
  cases fuel with
  | zero => rfl
  | succ g =>
    simp only [engine, Option.bind_eq_bind']
    rw [if_pos (show ((logDateIfChanged day s).loggedOps ++
        [({ type := t, opId := some o, moniker := some m, duration := d } :
          LogEntry)]).length >
        (logDateIfChanged day s).config.logBufferSize by
      rw [config_logDateIfChanged]
      have h1 := len_logDateIfChanged day s
      simp only [List.length_append, List.length_cons, List.length_nil]
      omega)]
    refine ihT g (by omega) day now _ ?_ ?_ ?_
    · show (logDateIfChanged day s).config.logBufferCleanStep ≤ 4
      rw [config_logDateIfChanged]
      exact hstep
    · show (logDateIfChanged day s).trimmingLogBufferInProgress = false
      rw [trimming_logDateIfChanged]
      exact hguard
    · show (logDateIfChanged day s).config.logBufferSize + 1 ≤
        ((logDateIfChanged day s).loggedOps ++
          [({ type := t, opId := some o, moniker := some m, duration := d } :
            LogEntry)]).length
      rw [config_logDateIfChanged]
      have h1 := len_logDateIfChanged day s
      simp only [List.length_append, List.length_cons, List.length_nil]
      omega

/-- The tail of one `#trimLogBuffer` pass (notification `addInfo`, guard
clear, `setSuccess`) returns `none` when the clean step is at most 4 and the
buffer is still one short of overflow: the success line re-crosses the
threshold and the re-triggered trim diverges by `ihT`. -/
theorem trim_tail_none (f day now : Nat) (S3 : TrackerState) (trimRef : Nat)
    (opT : TrackedOperation)
    (ihT : ∀ m2, m2 < f + 1 → ∀ (day now : Nat) (s2 : TrackerState),
      s2.config.logBufferCleanStep ≤ 4 →
      s2.trimmingLogBufferInProgress = false →
      s2.config.logBufferSize + 1 ≤ s2.loggedOps.length →
      engine m2 Call.trimC day now s2 = none)
    (hfT : findOp S3 trimRef = some opT) (hcT : opT.isCompleted = false)
    (hlt : trimRef < S3.nextRef)
    (hgu : S3.trimmingLogBufferInProgress = true)
    (hstep : S3.config.logBufferCleanStep ≤ 4)
    (hlen : S3.config.logBufferSize ≤ S3.loggedOps.length + 1) :
    ((asState (engine f (Call.addInfoC trimRef
        [JsVal.strVal "Notifying listener.", JsVal.objVal "removedEntries"])
        day now S3)).bind fun s =>
      (asFlag (engine f (Call.setCompletedC trimRef true
          [JsVal.objVal "loggedOps"]) day now
          { s with trimmingLogBufferInProgress := false })).bind fun p =>
        pure (p.1, EngineResult.unitRes)) = none := by
  cases hB : engine f (Call.addInfoC trimRef
      [JsVal.strVal "Notifying listener.", JsVal.objVal "removedEntries"])
      day now S3 with
  | none => rfl
  | some p =>
    obtain ⟨s3, resB⟩ := p
    have hAI : resB = EngineResult.unitRes ∧
        findOp s3 trimRef = some { opT with info := opT.info ++
          [[JsVal.strVal "Notifying listener.",
            JsVal.objVal "removedEntries"]] } := by
      cases f with
      | zero => simp [engine] at hB
      | succ g =>
        exact addInfo_shape g trimRef _ day now S3 s3 resB opT hfT hlt hB
    have hmB := guardMono f _ day now S3 s3 resB hB hgu
    have hc3 : s3.config = S3.config := hmB.2.1
    have hl3 : S3.loggedOps.length + 1 ≤ s3.loggedOps.length := by
      have h1 := hmB.2.2 rfl
      simp only [minAppend] at h1
      exact h1
    show (asFlag (engine f (Call.setCompletedC trimRef true
        [JsVal.objVal "loggedOps"]) day now
        { s3 with trimmingLogBufferInProgress := false })).bind
      (fun p => (pure (p.1, EngineResult.unitRes) :
        Option (TrackerState × EngineResult))) = none
    refine asFlag_bind_none ?_
    cases f with
    | zero => rfl
    | succ g =>
      simp only [engine, Option.bind_eq_bind']
      have hf4 : findOp { s3 with trimmingLogBufferInProgress := false }
          trimRef = some ({ opT with info := opT.info ++
            [[JsVal.strVal "Notifying listener.",
              JsVal.objVal "removedEntries"]] } : TrackedOperation) := hAI.2
      rw [hf4]
      simp only [Option.some_bind]
      rw [if_neg (show ¬ (({ opT with info := opT.info ++
          [[JsVal.strVal "Notifying listener.",
            JsVal.objVal "removedEntries"]] } :
          TrackedOperation).isCompleted = true) from
        (by simp [hcT] : ¬ (opT.isCompleted = true)))]
      rw [show getErrors [JsVal.objVal "loggedOps"] = none from rfl]
      simp only [Option.pure_def, Option.some_bind]
      refine asState_bind_none (logLineC_overflow_none g _ _ _ _ day now _
        ?_ ?_ ?_ ?_)
      · intro m2 hm2
        exact fun day2 now2 s2 ha hb hc => ihT m2 (by omega) day2 now2 s2
          ha hb hc
      · rfl
      · show s3.config.logBufferCleanStep ≤ 4
        rw [hc3]
        exact hstep
      · show s3.config.logBufferSize ≤ s3.loggedOps.length
        rw [hc3]
        omega

/-- With `logBufferCleanStep ≤ 4`, a trim of an overflowing buffer never
terminates: the trim pass removes `cleanStep` entries but emits 2 lines
before the splice and 2 after it (the last one after the reentrancy guard
has been cleared), so its own success line overflows the buffer again and
re-triggers the trim, forever.  In fuel terms: the trim call returns `none`
for **every** fuel. -/
theorem trimC_diverges : ∀ (fuel day now : Nat) (s : TrackerState),
    s.config.logBufferCleanStep ≤ 4 →
    s.trimmingLogBufferInProgress = false →
    s.config.logBufferSize + 1 ≤ s.loggedOps.length →
    engine fuel Call.trimC day now s = none := by
  intro fuel
  induction fuel using Nat.strong_induction_on with
  | _ fuel ih =>
    intro day now s hstep hguard hlen
    cases fuel with
    | zero => rfl
    | succ f =>
      simp only [engine, Option.bind_eq_bind']
      rw [if_neg (by simp [hguard])]
      cases hA : engine f (Call.startOperationC "Trimming Log Buffer"
          [JsVal.objVal "logEntries"]) day now
          { s with trimmingLogBufferInProgress := true } with
      | none => rfl
      | some p =>
        obtain ⟨s1, resA⟩ := p
        cases resA with
        | unitRes => rfl
        | flagRes b => rfl
        | handleRes hh => rfl
        | droppedRes a b => rfl
        | refRes trimRef =>
          obtain ⟨opT, hfT, hcT, hlt⟩ :=
            startOperationC_fresh f _ _ day now _ s1 trimRef hA
          have hmA := guardMono f _ day now _ s1 _ hA rfl
          have hc1 : s1.config = s.config := hmA.2.1
          have hl1 : s.loggedOps.length + 2 ≤ s1.loggedOps.length := by
            have h1 := hmA.2.2 rfl
            simp only [minAppend] at h1
            have hb : ({ s with trimmingLogBufferInProgress := true } :
                TrackerState).loggedOps.length = s.loggedOps.length := rfl
            omega
          have hcs : s1.config.logBufferCleanStep =
              s.config.logBufferCleanStep := by rw [hc1]
          show ((asState (engine f (Call.addInfoC trimRef
              [JsVal.strVal "Notifying listener.",
               JsVal.objVal "removedEntries"])
              day now
              (match (s1.loggedOps.take
                  s1.config.logBufferCleanStep).reverse.find?
                  (fun e => e.type = LogEntryType.Date) with
               | some d => { s1 with loggedOps :=
                   d :: s1.loggedOps.drop s1.config.logBufferCleanStep }
               | none => { s1 with loggedOps :=
                   s1.loggedOps.drop s1.config.logBufferCleanStep }))).bind
            fun s =>
              (asFlag (engine f (Call.setCompletedC trimRef true
                  [JsVal.objVal "loggedOps"]) day now
                  { s with trimmingLogBufferInProgress := false })).bind
                fun p => pure (p.1, EngineResult.unitRes)) = none
          cases hD : (s1.loggedOps.take
              s1.config.logBufferCleanStep).reverse.find?
              (fun e => e.type = LogEntryType.Date) with
          | none =>
            refine trim_tail_none f day now _ trimRef opT ih hfT hcT hlt
              hmA.1 ?_ ?_
            · show s1.config.logBufferCleanStep ≤ 4
              rw [hc1]
              exact hstep
            · show s1.config.logBufferSize ≤
                (s1.loggedOps.drop s1.config.logBufferCleanStep).length + 1
              rw [hc1]
              rw [List.length_drop]
              omega
          | some d =>
            refine trim_tail_none f day now _ trimRef opT ih hfT hcT hlt
              hmA.1 ?_ ?_
            · show s1.config.logBufferCleanStep ≤ 4
              rw [hc1]
              exact hstep
            · show s1.config.logBufferSize ≤
                (d :: s1.loggedOps.drop s1.config.logBufferCleanStep).length
                  + 1
              rw [hc1]
              simp only [List.length_cons, List.length_drop]
              omega

theorem logDateIfChanged_newday {day : Nat} {s : TrackerState}
    (h : s.lastLoggedDay ≠ day) :
    logDateIfChanged day s =
      { s with lastLoggedDay := day,
               loggedOps := s.loggedOps ++
                 [{ type := LogEntryType.Date, opId := none, moniker := none,
                    duration := none }] } := by
  unfold logDateIfChanged
  rw [if_neg h]

/-- A `logLine` on a buffer with room left, on an unchanged calendar day:
no trim fires, exactly the entry is appended. -/
theorem logLine_step_sameday (fuel : Nat) (m : Moniker) (d : Option String)
    (o : String) (t : LogEntryType) (day now : Nat) (s : TrackerState)
    (hday : s.lastLoggedDay = day)
    (hlen : s.loggedOps.length + 1 ≤ s.config.logBufferSize) :
    engine fuel (Call.logLineC m d o t) day now s = none ∨
    engine fuel (Call.logLineC m d o t) day now s =
      some ({ s with loggedOps := s.loggedOps ++
        [{ type := t, opId := some o, moniker := some m, duration := d }] },
        EngineResult.unitRes) := by
  cases fuel with
  | zero => exact Or.inl rfl
  | succ g =>
    right
    simp only [engine, Option.bind_eq_bind']
    rw [logDateIfChanged_sameday hday]
    rw [if_neg ?hc]
    case hc =>
      simp only [List.length_append, List.length_cons, List.length_nil]
      omega

/-- A `logLine` on a buffer with two slots left, on a new calendar day:
the date marker and the entry are appended, no trim fires. -/
theorem logLine_step_newday (fuel : Nat) (m : Moniker) (d : Option String)
    (o : String) (t : LogEntryType) (day now : Nat) (s : TrackerState)
    (hday : s.lastLoggedDay ≠ day)
    (hlen : s.loggedOps.length + 2 ≤ s.config.logBufferSize) :
    engine fuel (Call.logLineC m d o t) day now s = none ∨
    engine fuel (Call.logLineC m d o t) day now s =
      some ({ s with
        lastLoggedDay := day,
        loggedOps := (s.loggedOps ++
          [{ type := LogEntryType.Date, opId := none, moniker := none,
             duration := none }]) ++
          [{ type := t, opId := some o, moniker := some m,
             duration := d }] },
        EngineResult.unitRes) := by
  cases fuel with
  | zero => exact Or.inl rfl
  | succ g =>
    right
    simp only [engine, Option.bind_eq_bind']
    rw [logDateIfChanged_newday hday]
    rw [if_neg ?hc]
    case hc =>
      simp only [List.length_append, List.length_cons, List.length_nil]
      omega

theorem bind_none_or_refRes
    (x : Option (TrackerState × EngineResult))
    (k : TrackerState → Option (TrackerState × EngineResult))
    (G : TrackerState → Nat → Prop)
    (h : x = none ∨ ∃ sx, x = some (sx, EngineResult.unitRes) ∧
      (k sx = none ∨ ∃ s2 r, k sx = some (s2, EngineResult.refRes r) ∧
        G s2 r)) :
    (asState x).bind k = none ∨
    ∃ s2 r, (asState x).bind k = some (s2, EngineResult.refRes r) ∧
      G s2 r := by
  rcases h with h | ⟨sx, hx, hk⟩
  · rw [h]
    exact Or.inl rfl
  · rw [hx]
    exact hk

theorem bind_none_of (x : Option (TrackerState × EngineResult))
    (k : TrackerState → Option (TrackerState × EngineResult))
    (h : x = none ∨ ∃ sx, x = some (sx, EngineResult.unitRes) ∧
      k sx = none) :
    (asState x).bind k = none := by
  rcases h with h | ⟨sx, hx, hk⟩
  · rw [h]
    rfl
  · rw [hx]
    exact hk

/-- One container `startOperation` with no info, on a buffer with at least
two slots left and an unchanged calendar day: either the fuel runs out, or
it returns a fresh reference having appended exactly its `STRT` and
parent-info lines. -/
theorem startOp_step (fuel : Nat) (name : String) (day now : Nat)
    (s : TrackerState)
    (hday : s.lastLoggedDay = day)
    (hlen : s.loggedOps.length + 2 ≤ s.config.logBufferSize) :
    engine fuel (Call.startOperationC name []) day now s = none ∨
    ∃ (s2 : TrackerState) (r : Nat),
      engine fuel (Call.startOperationC name []) day now s =
        some (s2, EngineResult.refRes r) ∧
      s2.lastLoggedDay = day ∧
      s2.trimmingLogBufferInProgress = s.trimmingLogBufferInProgress ∧
      s2.config = s.config ∧
      s2.loggedOps.length = s.loggedOps.length + 2 := by
  cases fuel with
  | zero => exact Or.inl rfl
  | succ f =>
    simp only [engine, Option.bind_eq_bind']
    cases hid : s.idGen.createAndFormatNextId with
    | none => exact Or.inl rfl
    | some q =>
      obtain ⟨opId, gen⟩ := q
      simp only [Option.some_bind]
      cases f with
      | zero => exact Or.inl rfl
      | succ g =>
        simp only [engine, Option.bind_eq_bind']
        refine bind_none_or_refRes _ _ _
          (Or.imp (fun h => h) (fun h => ⟨_, h, ?_⟩)
            (logLine_step_sameday g _ _ _ _ day now _ hday ?_))
        case refine_2 =>
          show s.loggedOps.length + 1 ≤ s.config.logBufferSize
          omega
        refine bind_none_or_refRes _ _ _
          (Or.imp (fun h => h) (fun h => ⟨_, h, ?_⟩)
            (logLine_step_sameday g _ _ _ _ day now _ hday ?_))
        case refine_2 =>
          simp only [List.length_append, List.length_cons, List.length_nil]
          omega
        rw [show getErrors ([] : List JsVal) = none from rfl]
        simp only [Option.pure_def, Option.some_bind]
        refine Or.inr ⟨_, _, rfl, hday, rfl, rfl, ?_⟩
        simp only [addToActiveOpsStack, List.length_append, List.length_cons,
          List.length_nil]

/-- One container `startOperation` with no info on a fresh calendar day (two
entries of headroom after the date marker): either the fuel runs out, or it
returns having appended the date marker plus its two lines. -/
theorem startOp_step_newday (fuel : Nat) (name : String) (day now : Nat)
    (s : TrackerState)
    (hday : s.lastLoggedDay ≠ day)
    (hlen : s.loggedOps.length + 3 ≤ s.config.logBufferSize) :
    engine fuel (Call.startOperationC name []) day now s = none ∨
    ∃ (s2 : TrackerState) (r : Nat),
      engine fuel (Call.startOperationC name []) day now s =
        some (s2, EngineResult.refRes r) ∧
      s2.lastLoggedDay = day ∧
      s2.trimmingLogBufferInProgress = s.trimmingLogBufferInProgress ∧
      s2.config = s.config ∧
      s2.loggedOps.length = s.loggedOps.length + 3 := by
  cases fuel with
  | zero => exact Or.inl rfl
  | succ f =>
    simp only [engine, Option.bind_eq_bind']
    cases hid : s.idGen.createAndFormatNextId with
    | none => exact Or.inl rfl
    | some q =>
      obtain ⟨opId, gen⟩ := q
      simp only [Option.some_bind]
      cases f with
      | zero => exact Or.inl rfl
      | succ g =>
        simp only [engine, Option.bind_eq_bind']
        refine bind_none_or_refRes _ _ _
          (Or.imp (fun h => h) (fun h => ⟨_, h, ?_⟩)
            (logLine_step_newday g _ _ _ _ day now _ hday ?_))
        case refine_2 =>
          show s.loggedOps.length + 2 ≤ s.config.logBufferSize
          omega
        refine bind_none_or_refRes _ _ _
          (Or.imp (fun h => h) (fun h => ⟨_, h, ?_⟩)
            (logLine_step_sameday g _ _ _ _ day now _ rfl ?_))
        case refine_2 =>
          simp only [List.length_append, List.length_cons, List.length_nil]
          omega
        rw [show getErrors ([] : List JsVal) = none from rfl]
        simp only [Option.pure_def, Option.some_bind]
        refine Or.inr ⟨_, _, rfl, rfl, rfl, rfl, ?_⟩
        simp only [addToActiveOpsStack, List.length_append, List.length_cons,
          List.length_nil]

/-- A container `startOperation` on a same-day buffer exactly one entry
short of full diverges when the clean step is at most 4: its `STRT` line
fills the buffer, its parent-info line overflows it, and the triggered trim
never terminates. -/
theorem startOp_diverges (fuel : Nat) (name : String) (day now : Nat)
    (s : TrackerState)
    (hday : s.lastLoggedDay = day)
    (hguard : s.trimmingLogBufferInProgress = false)
    (hstep : s.config.logBufferCleanStep ≤ 4)
    (hlen : s.loggedOps.length + 2 = s.config.logBufferSize + 1) :
    engine fuel (Call.startOperationC name []) day now s = none := by
  cases fuel with
  | zero => rfl
  | succ f =>
    simp only [engine, Option.bind_eq_bind']
    cases hid : s.idGen.createAndFormatNextId with
    | none => rfl
    | some q =>
      obtain ⟨opId, gen⟩ := q
      simp only [Option.some_bind]
      cases f with
      | zero => rfl
      | succ g =>
        simp only [engine, Option.bind_eq_bind']
        refine bind_none_of _ _
          (Or.imp (fun h => h) (fun h => ⟨_, h, ?_⟩)
            (logLine_step_sameday g _ _ _ _ day now _ hday ?_))
        case refine_2 =>
          show s.loggedOps.length + 1 ≤ s.config.logBufferSize
          omega
        refine asState_bind_none (logLineC_overflow_none g _ _ _ _ day now _
          ?_ ?_ ?_ ?_)
        · intro m2 _
          exact fun day2 now2 s2 ha hb hc =>
            trimC_diverges m2 day2 now2 s2 ha hb hc
        · exact hguard
        · exact hstep
        · simp only [List.length_append, List.length_cons, List.length_nil]
          omega

/-- The C1 claim-parameter run (`logBufferSize = 10`,
`logBufferCleanStep = 4`, five container starts) never completes, whatever
the call budget: the fifth start's parent-info line overflows the buffer and
the triggered trim re-triggers itself forever (`trimC_diverges`). -/
theorem C1claim_diverges (fuel : Nat) : scenarioC1claimCfg fuel = none := by
  unfold scenarioC1claimCfg startOperation
  simp only [Option.bind_eq_bind', Option.pure_def, Option.some_bind]
  rcases startOp_step_newday fuel "Op1" 1 0 (trackerInit "S"
      { logBufferSize := 10, logBufferCleanStep := 4,
        eventDisplayDurationMSec := 3000 }) (by decide) (by decide) with
    h1 | ⟨s1, r1, heq1, hday1, htrim1, hcfg1, hlen1⟩
  · rw [h1]
    rfl
  · rw [heq1]
    simp only [asRef, Option.some_bind]
    rcases startOp_step fuel "Op2" 1 0 s1 hday1
        (by rw [hcfg1, hlen1]; decide) with
      h2 | ⟨s2, r2, heq2, hday2, htrim2, hcfg2, hlen2⟩
    · rw [h2]
      rfl
    · rw [heq2]
      simp only [asRef, Option.some_bind]
      rcases startOp_step fuel "Op3" 1 0 s2 hday2
          (by rw [hcfg2, hcfg1, hlen2, hlen1]; decide) with
        h3 | ⟨s3, r3, heq3, hday3, htrim3, hcfg3, hlen3⟩
      · rw [h3]
        rfl
      · rw [heq3]
        simp only [asRef, Option.some_bind]
        rcases startOp_step fuel "Op4" 1 0 s3 hday3
            (by rw [hcfg3, hcfg2, hcfg1, hlen3, hlen2, hlen1]; decide) with
          h4 | ⟨s4, r4, heq4, hday4, htrim4, hcfg4, hlen4⟩
        · rw [h4]
          rfl
        · rw [heq4]
          simp only [asRef, Option.some_bind]
          rw [startOp_diverges fuel "Op5" 1 0 s4 hday4
            (by rw [htrim4, htrim3, htrim2, htrim1]; rfl)
            (by rw [hcfg4, hcfg3, hcfg2, hcfg1]; decide)
            (by rw [hlen4, hlen3, hlen2, hlen1, hcfg4, hcfg3, hcfg2, hcfg1]
                decide)]
          rfl

/-! ## Claim theorems -/

/-- C1 (counterexample).  The claim's formula "immediately after a trim the
buffer's length equals `logBufferSize - logBufferCleanStep`, plus one if a
date marker was re-inserted at the head" fails at a concrete input: with
`logBufferSize = 10, logBufferCleanStep = 9`, ten emitted lines cause exactly
one trim, a date marker is re-inserted at the head, and the buffer is left
with 7 entries — not `10 - 9 + 1 = 2`.  (The trim operation itself emits 4
further lines, which the formula does not account for.) -/
theorem C1_trim_length_counterexample :
    scenarioC1.map (fun x =>
        (x.1, trimOpsCount x.2, x.2.loggedOps.length,
         x.2.loggedOps.head?.map (fun e => e.type))) =
      some ([3, 5, 7, 9, 7], 1, 7, some LogEntryType.Date) ∧
    (7 : Nat) ≠ 10 - 9 + 1 ∧ (7 : Nat) ≠ 10 - 9 := by
  decide

/-- C1 (amended).  In the `logBufferSize = 10, logBufferCleanStep = 9` run
of `scenarioC1` (five root container starts, ten operation lines plus the
initial date marker): the buffer length after each of the five calls is
3, 5, 7, 9, 7, each within the size 10; exactly one trim fires, removing
the 9 oldest entries and re-inserting the removed date marker at the head,
and — because the trim pass itself runs inside a tracked operation that
emits 4 more lines (start, parent info, listener notification, success) —
the post-trim buffer holds `10 + 6 - 9 = 7` entries, as the exact listing
shows.  With the claim's own `logBufferCleanStep = 4`, the same five starts
(`scenarioC1claimCfg`) never complete at **any** call budget: the trim's
success line is emitted after the reentrancy guard is cleared, re-crosses
the threshold and re-triggers the trim forever (`C1claim_diverges`, from
the `trimC_diverges` induction), so the engine returns `none` for every
fuel and no post-trim state with `10 - 4 = 6` or 7 entries is ever
reached. -/
theorem C1_trim_length_amended :
    scenarioC1.map (fun x => (x.1, trimOpsCount x.2, x.2.loggedOps)) =
      some ([3, 5, 7, 9, 7], 1,
        [{ type := LogEntryType.Date, opId := none, moniker := none,
           duration := none },
         { type := LogEntryType.OpStart, opId := some "S.0006",
           moniker := some Moniker.STRT, duration := none },
         { type := LogEntryType.OpInfo, opId := some "S.0006",
           moniker := some Moniker.INFO, duration := some "0ms" },
         { type := LogEntryType.OpStart, opId := some "S.0007",
           moniker := some Moniker.STRT, duration := none },
         { type := LogEntryType.OpInfo, opId := some "S.0007",
           moniker := some Moniker.INFO, duration := some "0ms" },
         { type := LogEntryType.OpEnd, opId := some "S.0007",
           moniker := some Moniker.INFO, duration := some "0ms" },
         { type := LogEntryType.OpEnd, opId := some "S.0007",
           moniker := some Moniker.SUCS, duration := some "0ms" }]) ∧
    (([3, 5, 7, 9, 7] : List Nat).all (fun n => n ≤ 10)) = true ∧
    (7 : Nat) = 10 + 6 - 9 ∧
    (∀ fuel, scenarioC1claimCfg fuel = none) :=
  ⟨by decide, by decide, by decide, C1claim_diverges⟩

/-- C2 (counterexample).  In the claim's scenario the tracker emits 6
operation log lines, not 4: each container start also emits a parent-info
`INFO` line.  The moniker sequence is
`STRT A, INFO A, STRT B, INFO B, SUCS B, SUCS A` (plus the initial date
marker entry, 7 buffer entries in total). -/
theorem C2_four_lines_counterexample :
    scenarioC2.map (fun x =>
        ((x.1.loggedOps.filter (fun e => e.opId.isSome)).length,
         x.1.loggedOps.length,
         x.1.loggedOps.filterMap (fun e => e.moniker))) =
      some (6, 7,
        [Moniker.STRT, Moniker.INFO, Moniker.STRT, Moniker.INFO,
         Moniker.SUCS, Moniker.SUCS]) ∧
    (6 : Nat) ≠ 4 := by
  decide

/-- C2 (amended).  The active stack evolves
`[] → [A] → [A, B] → [A] → []` exactly as claimed (references: `A = 0`,
`B = 1`), and the emitted log is the date marker followed by 6 operation
lines: `STRT A`, parent-info `INFO A`, `STRT B`, parent-info `INFO B`,
`SUCS B`, `SUCS A`. -/
theorem C2_scenario_amended :
    scenarioC2.map (fun x => (x.2.1, x.2.2.1, x.2.2.2, x.1.loggedOps)) =
      some (0, 1, [[], [0], [0, 1], [0], []],
        [{ type := LogEntryType.Date, opId := none, moniker := none,
           duration := none },
         { type := LogEntryType.OpStart, opId := some "S.0002",
           moniker := some Moniker.STRT, duration := none },
         { type := LogEntryType.OpInfo, opId := some "S.0002",
           moniker := some Moniker.INFO, duration := some "0ms" },
         { type := LogEntryType.OpStart, opId := some "S.0003",
           moniker := some Moniker.STRT, duration := none },
         { type := LogEntryType.OpInfo, opId := some "S.0003",
           moniker := some Moniker.INFO, duration := some "0ms" },
         { type := LogEntryType.OpEnd, opId := some "S.0003",
           moniker := some Moniker.SUCS, duration := some "0ms" },
         { type := LogEntryType.OpEnd, opId := some "S.0002",
           moniker := some Moniker.SUCS, duration := some "0ms" }]) := by
  decide

/-- C3 (code evaluation).  `addInfo("x")` appends the payload to the
operation's info list and emits exactly one log entry, rendered as an `INFO`
line annotated with the elapsed duration (`0.0050s` after 5 ms) — but the
entry's `LogEntryType` is `OpEnd`, not `OpInfo`: `TrackedOperation.addInfo`
(line 236 of `part_008`) passes `LogEntryType.OpEnd` to `logLine` although
it formats the entry with `#formatInfoEntry` (whose other call site, the
constructor's parent-info line, is tagged `OpInfo`). -/
theorem C3_addInfo_entry_type_bug :
    scenarioC3.map (fun x =>
        (x.1.loggedOps.length, x.2.1.loggedOps.length,
         x.2.1.loggedOps.get? 3)) =
      some (3, 4,
        some { type := LogEntryType.OpEnd, opId := some "S.0002",
               moniker := some Moniker.INFO, duration := some "0.0050s" }) ∧
    scenarioC3.map (fun x =>
        ((findOp x.1 x.2.2).map (fun o => o.info),
         (findOp x.2.1 x.2.2).map (fun o => o.info))) =
      some (some [], some [[JsVal.strVal "x"]]) ∧
    LogEntryType.OpEnd ≠ LogEntryType.OpInfo := by
  decide

/-- C4 (code evaluation).  The numeric ids are sequential with wrap-around
(`startId, …, maxId, startId` — shown for `maxId = 3, startId = 1`), but the
formatted id string returned by `createAndFormatNextId` is not the decimal
representation of the returned numeric id: `formatId` (line 106 of
`id_util.ts`) formats `this.#nextId` — already advanced past the returned
id — so the tracker's generator returns `(1, "0002")` where the claim
expects `"0001"`. -/
theorem C4_formatId_bug :
    trackerIdGenerator.createAndFormatNextId.map (fun x => x.1) =
      some (1, "0002") ∧
    padStart (toString 1) OPERATION_ID_FORMAT_MIN_DIGIT_COUNT '0' = "0001" ∧
    ("0002" : String) ≠ "0001" ∧
    (RotatingIdGenerator.create 3 1).map (fun g =>
        let (i1, g) := g.createNextId
        let (i2, g) := g.createNextId
        let (i3, g) := g.createNextId
        let (i4, _) := g.createNextId
        [i1, i2, i3, i4]) = some [1, 2, 3, 1] := by
  decide

/-- C6 (code evaluation).  In `scenarioC6` the compaction's first splice
removes both log entries of the still-active operation `X` (id `S.0007`):
the batch the splice drops contains 2 entries with `X`'s id while `X` is on
the active stack at that moment (the recorded active ids are
`[S.0007, S.0008]`, the drop operation itself being `S.0008`); `X` is still
active when the call returns, yet no entry of `X` remains in the buffer.
The cause: the progress `addInfo` logged between the scan and the splice
overflowed the buffer and triggered a trim, which shifted the buffer by
`logBufferCleanStep - 1` positions, so the splice at the stale scan indices
removed entries the scan never classified. -/
theorem C6_drop_active_entries_bug :
    scenarioC6.map (fun x =>
        ((x.2.get? 0).map (fun b =>
            ((b.1.filter (fun e => e.opId = some idStrX)).length,
             b.2.contains idStrX)),
         activeIdStrs x.1,
         (x.1.loggedOps.filter (fun e => e.opId = some idStrX)).length)) =
      some (some (2, true), [idStrX], 0) := by
  decide

/-- C9 (code evaluation).  For durations of one hour or more the rendered
string's hour field is not the whole number of elapsed hours: the source
(line 104 of `part_005`) computes `const hh = sec.toString()`, rendering the
seconds remainder in the hour position.  Two hours renders as
`0:00:00.0000` (expected hour field `2`); 1h 2m 3.456s renders as
`3:02:03.4560` (expected hour field `1`, but the seconds remainder 3 is
shown). -/
theorem C9_formatDuration_hour_bug :
    formatDuration 7200000 = "0:00:00.0000" ∧
    specHourField 7200000 = "2" ∧
    formatDuration 3723456 = "3:02:03.4560" ∧
    specHourField 3723456 = "1" ∧
    formatDuration 7200000 ≠ specHourField 7200000 ++ ":00:00.0000" := by
  decide


/-! ## Claim theorems (completion and nesting) -/

/-- C5.  An already-completed operation is immune to further completion
calls: both `setSuccess` and `setFailure` return `false` and leave the whole
tracker state — the operation's timestamps, completion flags and info, the
log buffer and the active stack — exactly unchanged. -/
theorem C5_completed_idempotent (fuel r : Nat) (info : List JsVal)
    (day now : Nat) (s : TrackerState) (op : TrackedOperation)
    (hf : findOp s r = some op) (hc : op.isCompleted = true) :
    setSuccess (fuel + 1) r info day now s = some (s, false) ∧
    setFailure (fuel + 1) r info day now s = some (s, false) := by
  constructor
  all_goals
    simp only [setSuccess, setFailure, setCompleted, engine,
      Option.bind_eq_bind']
    rw [hf]
    simp [asFlag, hc]

theorem C5_completed_idempotent_witness :
    setSuccess 50 0 [] 1 9 stateC5 = some (stateC5, false) ∧
    setFailure 50 0 [] 1 9 stateC5 = some (stateC5, false) :=
  C5_completed_idempotent 49 0 [] 1 9 stateC5 opC5 (by decide) (by decide)

/-- C7 (counterexample).  On an operation that is already completed
(container `A` completed by `setSuccess`), `setFailureAndRethrow(Error
"boom")` does **not** record the failure: the tracker state is exactly
unchanged (the operation stays succeeded and not failed, with empty info),
although the error is still thrown. -/
theorem C7_rethrow_counterexample :
    scenarioC7.map (fun x => decide (x.2.1 = x.1)) = some true ∧
    scenarioC7.map (fun x => x.2.2.1) = some (JsVal.errVal "boom") ∧
    scenarioC7.map (fun x => (findOp x.2.1 x.2.2.2).map
      (fun o => (o.isSucceeded, o.isFailed))) = some (some (true, false)) ∧
    scenarioC7.map (fun x => (findOp x.2.1 x.2.2.2).map
      (fun o => o.info)) = some (some []) := by
  decide

/-- C7 (amended).  On a **not-yet-completed** operation,
`setFailureAndRethrow(error, ...moreInfo)` does record then re-raise: the
thrown value is exactly the given error, and the operation is completed as
failed with end timestamp `now` and with
`[error, rethrow-message, ...moreInfo]` appended to its info. -/
theorem C7_rethrow_amended (fuel r : Nat) (error : JsVal)
    (moreInfo : List JsVal) (day now : Nat) (s s' : TrackerState)
    (thrown : JsVal) (op : TrackedOperation)
    (hf : findOp s r = some op) (hr : r < s.nextRef)
    (hc : op.isCompleted = false)
    (h : setFailureAndRethrow (fuel + 1) r error moreInfo day now s
      = some (s', thrown)) :
    thrown = error ∧
    findOp s' r = some (completedOp op false
      (error :: JsVal.strVal errorRethrownMsg :: moreInfo) now) ∧
    (completedOp op false
      (error :: JsVal.strVal errorRethrownMsg :: moreInfo) now).isFailed
      = true ∧
    (completedOp op false
      (error :: JsVal.strVal errorRethrownMsg :: moreInfo) now).endTime
      = some now ∧
    (completedOp op false
      (error :: JsVal.strVal errorRethrownMsg :: moreInfo) now).info
      = op.info ++ [error :: JsVal.strVal errorRethrownMsg :: moreInfo] := by
  have hd : hasData (error :: JsVal.strVal errorRethrownMsg :: moreInfo)
      = true := by
    simp only [hasData, List.length_cons, decide_eq_true_eq]
    omega
  unfold setFailureAndRethrow setFailure setCompleted at h
  simp only [Option.bind_eq_bind'] at h
  rw [Option.bind_eq_some'] at h
  obtain ⟨⟨s1, flag⟩, hSC, h⟩ := h
  rw [asFlag_eq_some] at hSC
  have hsh := setCompleted_shape fuel r false
    (error :: JsVal.strVal errorRethrownMsg :: moreInfo) day now s _ _
    op hf hr hc hSC
  simp only [Option.pure_def, Option.some.injEq, Prod.mk.injEq] at h
  obtain ⟨h1, h2⟩ := h
  subst h1
  subst h2
  refine ⟨rfl, hsh.2, ?_, ?_, ?_⟩
  · simp [completedOp, hd]
  · simp [completedOp, hd]
  · simp [completedOp, hd]

theorem C7_rethrow_amended_witness :
    pairC7w.2 = JsVal.errVal "boom" ∧
    findOp pairC7w.1 0 = some (completedOp opC7w false
      (JsVal.errVal "boom" :: JsVal.strVal errorRethrownMsg :: []) 9) ∧
    (completedOp opC7w false
      (JsVal.errVal "boom" :: JsVal.strVal errorRethrownMsg :: []) 9).isFailed
      = true ∧
    (completedOp opC7w false
      (JsVal.errVal "boom" :: JsVal.strVal errorRethrownMsg :: []) 9).endTime
      = some 9 ∧
    (completedOp opC7w false
      (JsVal.errVal "boom" :: JsVal.strVal errorRethrownMsg :: []) 9).info
      = opC7w.info ++
        [JsVal.errVal "boom" :: JsVal.strVal errorRethrownMsg :: []] :=
  C7_rethrow_amended 49 0 (JsVal.errVal "boom") [] 1 9 stateC7w pairC7w.1
    pairC7w.2 opC7w (by decide) (by decide) (by decide) (by decide)

/-- C8.  Nesting depth and parent link: (1) an operation created by
`startOperation` has `parentRef` the current top container's reference and
`nestDepth` one more than that container's depth (`0` and no parent at the
root); (2) the same holds for the operation wrapped by an `observeEvent`
handle; (3) no engine call ever changes the `nestDepth` of any existing
operation. -/
theorem C8_nestDepth_invariant :
    (∀ (fuel : Nat) (name : String) (info : List JsVal) (day now : Nat)
       (s s' : TrackerState) (r : Nat),
      startOperation (fuel + 2) name info day now s = some (s', r) →
      (findOp s' r).map (fun o => (o.parentRef, o.nestDepth)) =
        some ((getCurrentTopContainer s).map (fun p => p.ref),
          match getCurrentTopContainer s with
          | some p => p.nestDepth + 1
          | none => 0)) ∧
    (∀ (fuel : Nat) (kind : EventLevelKind) (name : String)
       (eventInfo : Option (Sum (List JsVal) JsVal)) (moreInfo : List JsVal)
       (day now : Nat) (s s' : TrackerState) (hndl : EventDisplayHandle),
      observeEvent (fuel + 2) kind name eventInfo moreInfo day now s
        = some (s', hndl) →
      (findOp s' hndl.opRef).map (fun o => (o.parentRef, o.nestDepth)) =
        some ((getCurrentTopContainer s).map (fun p => p.ref),
          match getCurrentTopContainer s with
          | some p => p.nestDepth + 1
          | none => 0)) ∧
    (∀ (fuel : Nat) (call : Call) (day now : Nat) (s s' : TrackerState)
       (res : EngineResult),
      engine fuel call day now s = some (s', res) →
      ∀ r, r < s.nextRef →
        (findOp s' r).map (fun o => o.nestDepth) =
          (findOp s r).map (fun o => o.nestDepth)) := by
  refine ⟨?_, ?_, ?_⟩
  · intro fuel name info day now s s' r h
    exact startOperation_shape fuel name info day now s s' r h
  · intro fuel kind name eventInfo moreInfo day now s s' hndl h
    obtain ⟨opX, hfind, hpar, hdep, _⟩ :=
      observeEvent_shape fuel kind name eventInfo moreInfo day now s s' hndl h
    rw [hfind, Option.map_some', completedOp_parentRef, completedOp_nestDepth,
      hpar, hdep]
  · intro fuel call day now s s' res h r hr
    exact (enginePreserves fuel call day now s s' res h).1.2.2 r hr

theorem C8_nestDepth_invariant_witness :
    (findOp pairC8.1 pairC8.2).map (fun o => (o.parentRef, o.nestDepth)) =
      some ((getCurrentTopContainer stateC7w).map (fun p => p.ref),
        match getCurrentTopContainer stateC7w with
        | some p => p.nestDepth + 1
        | none => 0) ∧
    (findOp outC10.1 outC10.2.opRef).map
        (fun o => (o.parentRef, o.nestDepth)) =
      some ((getCurrentTopContainer stateC10).map (fun p => p.ref),
        match getCurrentTopContainer stateC10 with
        | some p => p.nestDepth + 1
        | none => 0) ∧
    (findOp pairC8.1 0).map (fun o => o.nestDepth) =
      (findOp stateC7w 0).map (fun o => o.nestDepth) :=
  ⟨C8_nestDepth_invariant.1 48 "B" [] 1 0 stateC7w pairC8.1 pairC8.2
     (by decide),
   C8_nestDepth_invariant.2.1 48 EventLevelKind.Err "disk full" none [] 1 0
     stateC10 outC10.1 outC10.2 (by decide),
   C8_nestDepth_invariant.2.2 50 (Call.startOperationC "B" []) 1 0 stateC7w
     pairC8.1 (EngineResult.refRes pairC8.2) (by decide) 0 (by decide)⟩

/-- C10.  The handle returned by `observeEvent` reports the display-delay
expiry, not the operation's completion: right after the call
`isCompleted()` is `false` although the wrapped operation is already
completed with success, and it becomes `true` once the expiry timer fires
(`eventExpire`).  Concretely, with `eventDisplayDurationMSec = 100` the
handle's delay is a started 100 ms `DelayPromise`. -/
theorem C10_event_handle_completion :
    (∀ (fuel : Nat) (kind : EventLevelKind) (name : String)
       (eventInfo : Option (Sum (List JsVal) JsVal)) (moreInfo : List JsVal)
       (day now : Nat) (s s' : TrackerState) (hndl : EventDisplayHandle),
      observeEvent (fuel + 2) kind name eventInfo moreInfo day now s
        = some (s', hndl) →
      hndl.isCompleted = false ∧
      (eventExpire hndl s').1.isCompleted = true ∧
      (findOp s' hndl.opRef).map (fun o => o.isCompleted) = some true ∧
      (findOp s' hndl.opRef).map (fun o => o.isSucceeded) = some true) ∧
    (scenarioC10.map (fun x => x.2.isCompleted) = some false ∧
     scenarioC10.map (fun x => (eventExpire x.2 x.1).1.isCompleted)
       = some true ∧
     scenarioC10.map (fun x => (x.2.delay.delayMSec, x.2.delay.isStarted))
       = some (100, true) ∧
     scenarioC10.map (fun x => (findOp x.1 x.2.opRef).map
       (fun o => (o.isSucceeded, o.isFailed))) = some (some (true, false))) := by
  constructor
  · intro fuel kind name eventInfo moreInfo day now s s' hndl h
    obtain ⟨opX, hfind, hpar, hdep, hdel⟩ :=
      observeEvent_shape fuel kind name eventInfo moreInfo day now s s' hndl h
    refine ⟨?_, ?_, ?_, ?_⟩
    · simp [EventDisplayHandle.isCompleted, hdel, DelayPromise.start,
        DelayPromise.create, DelayPromise.isCompleted]
    · simp [eventExpire, EventDisplayHandle.isCompleted, hdel,
        DelayPromise.timerFire, DelayPromise.tryResolveWith,
        DelayPromise.start, DelayPromise.create, DelayPromise.isCompleted]
    · rw [hfind, Option.map_some', completedOp_isCompleted]
    · rw [hfind, Option.map_some', completedOp_isSucceeded]
  · decide

theorem C10_event_handle_completion_witness :
    outC10.2.isCompleted = false ∧
    (eventExpire outC10.2 outC10.1).1.isCompleted = true ∧
    (findOp outC10.1 outC10.2.opRef).map (fun o => o.isCompleted)
      = some true ∧
    (findOp outC10.1 outC10.2.opRef).map (fun o => o.isSucceeded)
      = some true :=
  C10_event_handle_completion.1 48 EventLevelKind.Err "disk full" none [] 1 0
    stateC10 outC10.1 outC10.2 (by decide)

end ExpLensTracker
